import Mathlib

/-!
# Fixed-capacity connection buffers (`src/or/buffers.c`)

A shallow embedding of the buffer primitives of `buffers.c` and the properties
its specification states about them.

Conventions of the embedding.

* A region of `char` memory is a `List Byte`; a pointer into a region is the
  region together with an offset.
* A C `int` is an `Int`, and an `int` is 32 bits wide. The capacity of a buffer
  is an `int`, so it is at most `2147483647`. In `write_to_buf` the sum
  `string_len + *buf_datalen` is formed before anything is known about
  `string_len`; it is taken in 32-bit two's complement (`wrap_int`), which is
  what the machine computes when the sum leaves the range of `int`. The other
  sums and differences combine counts that a preceding test, or the contract
  of the call that produced them, keeps within a buffer. The
  conversion of `int` to `size_t` in a mixed comparison is written out
  (`to_size_t`). A byte count handed to `memcpy`/`memmove` is the count itself
  when it is non-negative.
* A buffer is the triple the C functions receive by reference
  (`char **buf, int *buflen, int *buf_datalen`); the flush cursor
  (`int *buf_flushlen`) is a separate location, passed only to `flush_buf`.
* A function that writes through its pointer arguments returns the new
  contents next to its `int` result.
* `assert` aborts the process: a function whose assertion can fail on the
  modelled data returns `none` there.  Assertions that only say a pointer is
  non-null always hold here and are left out.
* `read`, `write`, `deflate`, `inflate` and `malloc` are external: they are
  parameters, and a result records the system calls that were issued.
-/

namespace Buffers

/-! ## Memory -/

/-- One `char` of storage. -/
abbrev Byte := Fin 256

/-- The region `dst` after `memcpy(dst + off, src, n)`. -/
def memcpy (dst : List Byte) (off : Nat) (src : List Byte) (n : Nat) : List Byte :=
  dst.take off ++ src.take n ++ dst.drop (off + n)

/-- The region `buf` after `memmove(buf + dstOff, buf + srcOff, n)`: the source
bytes are read before any byte is stored, so overlap is harmless. -/
def memmove (buf : List Byte) (dstOff srcOff n : Nat) : List Byte :=
  memcpy buf dstOff (buf.drop srcOff) n

/-! ## Constants and external calls -/

/-- The value of `EAGAIN` in `<errno.h>`. -/
def EAGAIN : Int := 11

/-- Return code `Z_OK` of `<zlib.h>`. -/
def Z_OK : Int := 0
/-- Return code `Z_STREAM_END` of `<zlib.h>`. -/
def Z_STREAM_END : Int := 1
/-- Return code `Z_STREAM_ERROR` of `<zlib.h>`. -/
def Z_STREAM_ERROR : Int := -2
/-- Return code `Z_BUF_ERROR` of `<zlib.h>`. -/
def Z_BUF_ERROR : Int := -5

/-- The part of the global `options` (`or_options_t`, declared in `or.h`) that
`buffers.c` reads. -/
structure or_options_t where
  LinkPadding : Int

/-- Constants that `buffers.c` takes from `or.h` and from the platform.  The
header is not part of the sources at hand, so they are parameters. -/
structure Consts where
  MAX_BUF_SIZE : Int
  CELL_PAYLOAD_SIZE : Int
  TOPIC_HEADER_SIZE : Int
  /-- The value of `sizeof(cell_t)`. -/
  sizeof_cell_t : Nat
  /-- Width of `size_t` in bits. -/
  size_t_bits : Nat
  /-- The buffer size is a value of type `int`. -/
  MAX_BUF_SIZE_int : MAX_BUF_SIZE ≤ 2147483647 := by decide

/-- The 32-bit two's complement value of a sum of two `int`s: the sum itself
when it lies between `-2147483648` and `2147483647`, else the sum reduced
modulo `2 ^ 32` into that range. -/
def wrap_int (x : Int) : Int := (x + 2147483648) % 4294967296 - 2147483648

/-- Conversion of an `int` to `size_t` (reduction modulo `2 ^ size_t_bits`). -/
def to_size_t (k : Consts) (x : Int) : Int := x % (2 : Int) ^ k.size_t_bits

/-- What one `read(s, p, count)` did: its return value, `errno`, and the bytes
the kernel stored from `p` on. -/
structure ReadOutcome where
  result : Int
  errno : Int
  data : List Byte

/-- What one `write(s, p, count)` did: its return value and `errno`. -/
structure WriteOutcome where
  result : Int
  errno : Int

/-- The socket layer. `read s count`; `write s mem count`, where `mem` is the
memory at the pointer handed to `write`. -/
structure Sys where
  read : Int → Int → ReadOutcome
  write : Int → List Byte → Int → WriteOutcome

/-- A system call issued by a buffer function, with the byte count requested. -/
inductive Syscall where
  | read (s : Int) (count : Int)
  | write (s : Int) (count : Int)
  deriving DecidableEq, Repr

/-! ## The buffer -/

/-- The three locations that make up a buffer: `*buf` (the storage), `*buflen`
(its capacity) and `*buf_datalen` (the number of valid bytes, from offset 0).
The capacity is a value of type `int`. -/
structure Buf where
  buf : List Byte
  buflen : Int
  buf_datalen : Int
  buflen_int : buflen ≤ 2147483647 := by decide
  deriving DecidableEq, Repr

/-- The valid region of a buffer: its first `buf_datalen` bytes. -/
def Buf.valid (b : Buf) : List Byte := b.buf.take b.buf_datalen.toNat

/-- The function `buf_new`. `malloc n` is `none` when the allocation fails, else
the (uninitialised) region obtained. Returns the `int` result and the buffer
written through the three out-pointers. -/
def buf_new (k : Consts) (malloc : Int → Option (List Byte)) : Int × Option Buf :=
  match malloc k.MAX_BUF_SIZE with
  | none => (-1, none)
  | some mem =>
    (0, some { buf := mem, buflen := k.MAX_BUF_SIZE, buf_datalen := 0,
               buflen_int := k.MAX_BUF_SIZE_int })

/-- The function `write_to_buf(string, string_len, buf, buflen, buf_datalen)`.
Both sums of `string_len` and `*buf_datalen` are 32-bit sums. -/
def write_to_buf (string : List Byte) (string_len : Int) (b : Buf) : Int × Buf :=
  if wrap_int (string_len + b.buf_datalen) > b.buflen then
    (-1, b)
  else
    let buf' := memcpy b.buf b.buf_datalen.toNat string string_len.toNat
    let datalen' := wrap_int (b.buf_datalen + string_len)
    (datalen', { b with buf := buf', buf_datalen := datalen' })

/-- The function `fetch_from_buf(string, string_len, buf, buflen, buf_datalen)`.
`string` is the caller's output region; the result holds the `int` returned,
the output region afterwards, and the buffer afterwards. -/
def fetch_from_buf (string : List Byte) (string_len : Int) (b : Buf) :
    Int × List Byte × Buf :=
  if string_len > b.buf_datalen then
    (-1, string, b)
  else
    let string' := memcpy string 0 b.buf string_len.toNat
    let datalen' := b.buf_datalen - string_len
    let buf' := memmove b.buf 0 string_len.toNat datalen'.toNat
    (datalen', string', { b with buf := buf', buf_datalen := datalen' })

/-- Result of `flush_buf`: the `int` returned, the buffer and the flush cursor
afterwards, and the system calls issued. -/
structure FlushResult where
  ret : Int
  b : Buf
  buf_flushlen : Int
  trace : List Syscall
  deriving DecidableEq, Repr

/-- The function `flush_buf(s, buf, buflen, buf_flushlen, buf_datalen)`. -/
def flush_buf (sys : Sys) (s : Int) (b : Buf) (buf_flushlen : Int) : Option FlushResult :=
  if ¬ (s ≥ 0 ∧ buf_flushlen ≤ b.buf_datalen) then
    none
  else if buf_flushlen = 0 then
    some { ret := 0, b := b, buf_flushlen := buf_flushlen, trace := [] }
  else
    let w := sys.write s b.buf buf_flushlen
    if w.result < 0 then
      if w.errno ≠ EAGAIN then
        some { ret := -1, b := b, buf_flushlen := buf_flushlen,
               trace := [Syscall.write s buf_flushlen] }
      else
        some { ret := 0, b := b, buf_flushlen := buf_flushlen,
               trace := [Syscall.write s buf_flushlen] }
    else
      let datalen' := b.buf_datalen - w.result
      let flushlen' := buf_flushlen - w.result
      let buf' := memmove b.buf 0 w.result.toNat datalen'.toNat
      some { ret := flushlen', b := { b with buf := buf', buf_datalen := datalen' },
             buf_flushlen := flushlen', trace := [Syscall.write s buf_flushlen] }

/-- Result of `read_to_buf`: the `int` returned, the buffer and `*reached_eof`
afterwards, and the system calls issued. -/
structure ReadResult where
  ret : Int
  b : Buf
  reached_eof : Int
  trace : List Syscall
  deriving DecidableEq, Repr

/-- The function `read_to_buf(s, at_most, buf, buflen, buf_datalen, reached_eof)`. -/
def read_to_buf (k : Consts) (options : or_options_t) (sys : Sys) (s : Int) (at_most : Int)
    (b : Buf) (reached_eof : Int) : Option ReadResult :=
  if ¬ (s ≥ 0) then
    none
  else
    let at_most1 :=
      if at_most < 0 ∨ b.buflen - b.buf_datalen < at_most then b.buflen - b.buf_datalen
      else at_most
    if at_most1 = 0 then
      some { ret := 0, b := b, reached_eof := reached_eof, trace := [] }
    else
      let at_most2 :=
        if options.LinkPadding = 0 ∧ to_size_t k at_most1 > 10 * (k.sizeof_cell_t : Int) then
          10 * (k.CELL_PAYLOAD_SIZE - k.TOPIC_HEADER_SIZE)
        else at_most1
      let r := sys.read s at_most2
      if r.result < 0 then
        if r.errno ≠ EAGAIN then
          some { ret := -1, b := b, reached_eof := reached_eof,
                 trace := [Syscall.read s at_most2] }
        else
          some { ret := 0, b := b, reached_eof := reached_eof,
                 trace := [Syscall.read s at_most2] }
      else if r.result = 0 then
        some { ret := 0, b := b, reached_eof := 1, trace := [Syscall.read s at_most2] }
      else
        let buf' := memcpy b.buf b.buf_datalen.toNat r.data r.result.toNat
        some { ret := r.result,
               b := { b with buf := buf', buf_datalen := b.buf_datalen + r.result },
               reached_eof := reached_eof, trace := [Syscall.read s at_most2] }

/-! ## The compression pipeline -/

/-- The fields of zlib's `z_stream` that `buffers.c` reads and writes. A pointer
is the offset into the region it was set from; `state` stands for the codec's
own working state. -/
structure z_stream where
  next_in : Nat
  avail_in : Int
  next_out : Nat
  avail_out : Int
  state : Nat
  deriving DecidableEq, Repr

/-- What one `deflate`/`inflate` step did: its return code, the stream
afterwards, and the bytes it stored from the old `next_out` on. -/
structure CodecOutcome where
  err : Int
  strm : z_stream
  out : List Byte

/-- One codec step `deflate(zstream, flush)` / `inflate(zstream, flush)`: given
the stream, the input region and `flush`. -/
abbrev Codec := z_stream → List Byte → Int → CodecOutcome

/-- Result of `compress_from_buf`: the `int` returned, the destination region,
the source buffer and the stream afterwards, and whether the codec ran. -/
structure CompressResult where
  ret : Int
  string : List Byte
  b_in : Buf
  zstream : z_stream
  invoked : Bool

/-- The function `compress_from_buf(string, string_len, buf_in, buflen_in,
buf_datalen_in, zstream, flush)`. -/
def compress_from_buf (deflate : Codec) (string : List Byte) (string_len : Int)
    (b_in : Buf) (zstream : z_stream) (flush : Int) : CompressResult :=
  if b_in.buf_datalen = 0 then
    { ret := 0, string := string, b_in := b_in, zstream := zstream, invoked := false }
  else
    let z0 : z_stream :=
      { zstream with next_in := 0, avail_in := b_in.buf_datalen,
                     next_out := 0, avail_out := string_len }
    let o := deflate z0 b_in.buf flush
    let z := o.strm
    let string' := memcpy string 0 o.out o.out.length
    if o.err = Z_OK ∨ o.err = Z_STREAM_END then
      { ret := string_len - z.avail_out, string := string',
        b_in := { b_in with buf := memmove b_in.buf 0 z.next_in z.avail_in.toNat,
                            buf_datalen := z.avail_in },
        zstream := z, invoked := true }
    else if o.err = Z_STREAM_ERROR ∨ o.err = Z_BUF_ERROR then
      { ret := -1, string := string', b_in := b_in, zstream := z, invoked := true }
    else
      { ret := -1, string := string', b_in := b_in, zstream := z, invoked := true }

/-- Result of `decompress_buf_to_buf`: the `int` returned, both buffers and the
stream afterwards, and whether the codec ran. -/
structure DecompressResult where
  ret : Int
  b_in : Buf
  b_out : Buf
  zstream : z_stream
  invoked : Bool

/-- The function `decompress_buf_to_buf(buf_in, buflen_in, buf_datalen_in,
buf_out, buflen_out, buf_datalen_out, zstream, flush)`. -/
def decompress_buf_to_buf (inflate : Codec) (b_in b_out : Buf) (zstream : z_stream)
    (flush : Int) : DecompressResult :=
  let z0 : z_stream :=
    { zstream with next_in := 0, avail_in := b_in.buf_datalen,
                   next_out := b_out.buf_datalen.toNat,
                   avail_out := b_out.buflen - b_out.buf_datalen }
  if z0.avail_in = 0 ∧ z0.avail_out = 0 then
    { ret := 0, b_in := b_in, b_out := b_out, zstream := z0, invoked := false }
  else
    let o := inflate z0 b_in.buf flush
    let z := o.strm
    let out' := memcpy b_out.buf z0.next_out o.out o.out.length
    if o.err = Z_OK ∨ o.err = Z_STREAM_END then
      { ret := 1,
        b_in := { b_in with buf := memmove b_in.buf 0 z.next_in z.avail_in.toNat,
                            buf_datalen := z.avail_in },
        b_out := { b_out with buf := out', buf_datalen := b_out.buflen - z.avail_out },
        zstream := z, invoked := true }
    else if o.err = Z_STREAM_ERROR ∨ o.err = Z_BUF_ERROR then
      { ret := 1, b_in := b_in, b_out := { b_out with buf := out' },
        zstream := z, invoked := true }
    else
      { ret := -1, b_in := b_in, b_out := { b_out with buf := out' },
        zstream := z, invoked := true }




/-! ## Sequences of application calls -/

/-- A call made by the protocol logic: append `bytes`, or consume `string_len`
bytes into the output region `string`. -/
inductive Call where
  | write (bytes : List Byte)
  | fetch (string : List Byte) (string_len : Nat)

/-- A buffer together with everything written to it and fetched from it so far. -/
structure Run where
  b : Buf
  written : List Byte
  fetched : List Byte

/-- Perform one call; `none` when the call is not a successful one: it reports
failure (`-1`), or, for a write, the sum of its byte count and `data_length`
is not a value of type `int` (the sum overflows, which C leaves undefined). -/
def Run.call (r : Run) : Call → Option Run
  | Call.write bytes =>
    let w := write_to_buf bytes bytes.length r.b
    if (bytes.length : Int) + r.b.buf_datalen > 2147483647 ∨ w.1 = -1 then none
    else some { b := w.2, written := r.written ++ bytes, fetched := r.fetched }
  | Call.fetch string n =>
    let f := fetch_from_buf string n r.b
    if f.1 = -1 then none
    else some { b := f.2.2, written := r.written, fetched := r.fetched ++ f.2.1.take n }

/-- Perform a sequence of calls, all of which must succeed. -/
def Run.calls (r : Run) : List Call → Option Run
  | [] => some r
  | c :: cs => (r.call c).bind (fun r' => r'.calls cs)

/-! ## Scenarios of the specification -/

/-- A fresh buffer of capacity 16384 with nothing stored. -/
def scenario_empty : Buf :=
  { buf := List.replicate 16384 0, buflen := 16384, buf_datalen := 0 }

/-- A run of 16380 bytes. -/
def scenario_bulk : List Byte := List.replicate 16380 7

/-- The bytes of `"HELLO"`. -/
def scenario_hello : List Byte := [72, 69, 76, 76, 79]

/-- The run of the specification's scenario: `HELLO` is written to the fresh
buffer and five bytes are fetched into a zeroed region. -/
def scenario_calls : List Call :=
  [Call.write scenario_hello, Call.fetch [0, 0, 0, 0, 0] 5]

/-! ## Repeated flushing, the invariant, and well-behaved collaborators -/

/-- `flush_buf` called `n + 1` times in a row with the same socket: the result
of the last call, with the system calls of all of them. `none` when a call
aborts. -/
def flush_buf_repeat (sys : Sys) (s : Int) : Nat → Buf → Int → Option FlushResult
  | 0, b, buf_flushlen => flush_buf sys s b buf_flushlen
  | n + 1, b, buf_flushlen =>
    (flush_buf sys s b buf_flushlen).bind fun r =>
      (flush_buf_repeat sys s n r.b r.buf_flushlen).map fun r' =>
        { r' with trace := r.trace ++ r'.trace }

/-- The invariant of the data model, `0 ≤ flush_length ≤ data_length ≤ capacity`,
for a buffer and the flush cursor kept next to it. -/
def Inv (b : Buf) (buf_flushlen : Int) : Prop :=
  0 ≤ buf_flushlen ∧ buf_flushlen ≤ b.buf_datalen ∧ b.buf_datalen ≤ b.buflen

instance (b : Buf) (buf_flushlen : Int) : Decidable (Inv b buf_flushlen) := by
  unfold Inv; infer_instance

/-- A socket layer that keeps the contract of `read` and `write`: a call either
fails (negative result) or transfers between 0 and `count` bytes. -/
def Sys.respects (sys : Sys) : Prop :=
  (∀ s count, (sys.read s count).result < 0 ∨
      (0 ≤ (sys.read s count).result ∧ (sys.read s count).result ≤ count)) ∧
  (∀ s mem count, (sys.write s mem count).result < 0 ∨
      (0 ≤ (sys.write s mem count).result ∧ (sys.write s mem count).result ≤ count))

/-- A codec that keeps the contract of a `deflate`/`inflate` step: given
non-negative `avail_in` and `avail_out`, it consumes at most the input offered
and produces at most the output space offered, so both counts stay between 0
and their value before the step. -/
def Codec.respects (c : Codec) : Prop :=
  ∀ z mem flush, 0 ≤ z.avail_in → 0 ≤ z.avail_out →
    (0 ≤ (c z mem flush).strm.avail_in ∧ (c z mem flush).strm.avail_in ≤ z.avail_in) ∧
    (0 ≤ (c z mem flush).strm.avail_out ∧ (c z mem flush).strm.avail_out ≤ z.avail_out)

/-- A socket layer for examples: `read` delivers `count` zero bytes, `write`
accepts all but one of the `count` bytes offered. -/
def scenario_sys : Sys :=
  { read := fun _ count => { result := count, errno := 0, data := List.replicate count.toNat 0 },
    write := fun _ _ count => { result := count - 1, errno := 0 } }

/-- A socket layer for examples whose calls all fail with `errno`. -/
def scenario_sys_failing (errno : Int) : Sys :=
  { read := fun _ _ => { result := -1, errno := errno, data := [] },
    write := fun _ _ _ => { result := -1, errno := errno } }

/-- A codec for examples: every step succeeds, consumes the whole input and
produces no output. -/
def scenario_codec : Codec := fun z _ _ =>
  { err := Z_OK,
    strm := { z with next_in := z.next_in + z.avail_in.toNat, avail_in := 0 },
    out := [] }

/-! ## `read_to_buf`: the byte count requested -/

/-- The value of `at_most` in `read_to_buf` once the minimum with the free space
has been taken (after the first `if`). -/
def read_to_buf_cap (at_most : Int) (b : Buf) : Int :=
  if at_most < 0 ∨ b.buflen - b.buf_datalen < at_most then b.buflen - b.buf_datalen
  else at_most

/-- The value of `at_most` that `read_to_buf` hands to `read` (after the
`LinkPadding` test). -/
def read_to_buf_count (k : Consts) (options : or_options_t) (at_most : Int) (b : Buf) : Int :=
  if options.LinkPadding = 0 ∧
      to_size_t k (read_to_buf_cap at_most b) > 10 * (k.sizeof_cell_t : Int) then
    10 * (k.CELL_PAYLOAD_SIZE - k.TOPIC_HEADER_SIZE)
  else read_to_buf_cap at_most b

/-- The effective cap in the words of the specification:
`min(at_most if ≥ 0 else ∞, capacity − data_length)`. -/
def effective_cap (at_most : Int) (b : Buf) : Int :=
  if 0 ≤ at_most then min at_most (b.buflen - b.buf_datalen) else b.buflen - b.buf_datalen

/-- The constants of the cell format: a payload of 120 bytes in a cell of 128
bytes, a topic header of 4 bytes, buffers of 16384 bytes, a 32-bit `size_t`. -/
def scenario_consts : Consts :=
  { MAX_BUF_SIZE := 16384, CELL_PAYLOAD_SIZE := 120, TOPIC_HEADER_SIZE := 4,
    sizeof_cell_t := 128, size_t_bits := 32 }

/-! ## Pattern search -/

/-- The function `memcmp(a, b, n)` of `<string.h>`: zero exactly when the first
`n` bytes of the two regions agree. Only the test for zero is used, so a
non-zero result is given as 1 whatever its sign. -/
def memcmp (a b : List Byte) (n : Nat) : Int :=
  if a.take n = b.take n then 0 else 1

/-- The `for` loop of `find_on_inbuf`. `location` is the offset of the pointer
`location` from `buf`, `last_possible` that of `last_possible`; the first
argument bounds the number of iterations. -/
def find_on_inbuf_loop (string : List Byte) (string_len : Int) (buf : List Byte)
    (last_possible : Int) : Nat → Nat → Int
  | 0, _ => -1
  | fuel + 1, location =>
    if (location : Int) ≤ last_possible then
      if buf[location]? = string[0]? ∧
          memcmp (buf.drop (location + 1)) (string.drop 1) (string_len - 1).toNat = 0 then
        (location : Int) + string_len
      else
        find_on_inbuf_loop string string_len buf last_possible fuel (location + 1)
    else
      -1

/-- The function `find_on_inbuf(string, string_len, buf, buf_datalen)`. The loop
runs at most `buf_datalen - string_len + 1` times, once for each offset from 0
to `last_possible`. -/
def find_on_inbuf (string : List Byte) (string_len : Int) (buf : List Byte)
    (buf_datalen : Int) : Option Int :=
  let last_possible := buf_datalen - string_len
  if ¬ (string_len > 0) then
    none
  else if buf_datalen < string_len then
    some (-1)
  else
    some (find_on_inbuf_loop string string_len buf last_possible
      (last_possible + 1).toNat 0)

/-- The delimiter `string` occurs in `region` at offset `i`. -/
def occurs_at (string region : List Byte) (i : Nat) : Prop :=
  (region.drop i).take string.length = string

instance (string region : List Byte) (i : Nat) : Decidable (occurs_at string region i) := by
  unfold occurs_at; infer_instance

/-- The bytes of `"\r\n\r\n"`. -/
def scenario_delimiter : List Byte := [13, 10, 13, 10]

/-- The bytes of `"GET / HTTP/1.0\r\n\r\nX"`. -/
def scenario_request : List Byte :=
  [71, 69, 84, 32, 47, 32, 72, 84, 84, 80, 47, 49, 46, 48, 13, 10, 13, 10, 88]

/-! ## The codec step -/

/-- The stream handed to `deflate` by `compress_from_buf`: the whole valid
region of the source as input, `string_len` bytes of `string` as output space. -/
def compress_offer (zstream : z_stream) (b_in : Buf) (string_len : Int) : z_stream :=
  { zstream with next_in := 0, avail_in := b_in.buf_datalen,
                 next_out := 0, avail_out := string_len }

/-- The stream handed to `inflate` by `decompress_buf_to_buf`: the whole valid
region of the source as input, the storage of the destination from offset
`buf_datalen` on as output space. -/
def decompress_offer (zstream : z_stream) (b_in b_out : Buf) : z_stream :=
  { zstream with next_in := 0, avail_in := b_in.buf_datalen,
                 next_out := b_out.buf_datalen.toNat,
                 avail_out := b_out.buflen - b_out.buf_datalen }

/-- A codec step that, offered the stream `z`, consumed `c` input bytes and
produced `p` output bytes: both pointers advance and both counts drop by these
amounts, and `p` bytes were stored. -/
def CodecOutcome.step (o : CodecOutcome) (z : z_stream) (c p : Nat) : Prop :=
  o.strm.next_in = z.next_in + c ∧ o.strm.avail_in = z.avail_in - c ∧
  o.strm.next_out = z.next_out + p ∧ o.strm.avail_out = z.avail_out - p ∧
  o.out.length = p

/-- A codec for examples: every step returns `err`; when `err` is `Z_OK` it
consumes two input bytes and stores the three bytes `[7, 8, 9]`, otherwise it
leaves the stream alone. -/
def scenario_codec_step (err : Int) : Codec := fun z _ _ =>
  if err = Z_OK then
    { err := err,
      strm := { z with next_in := z.next_in + 2, avail_in := z.avail_in - 2,
                       next_out := z.next_out + 3, avail_out := z.avail_out - 3 },
      out := [7, 8, 9] }
  else
    { err := err, strm := z, out := [] }

/-! ## Memory lemmas -/

theorem take_append_exact {α : Type} (A S R : List α) (d : Nat)
    (h : A.length = d ∨ (A.length ≤ d ∧ R = [])) :
    (A ++ S ++ R).take (d + S.length) = A ++ S := by
  rcases h with h | ⟨h, rfl⟩
  · subst h
    rw [← List.length_append, List.take_left']
    rfl
  · rw [List.append_nil]
    apply List.take_of_length_le
    simp; omega

theorem memcpy_length (dst src : List Byte) (off n : Nat)
    (hsrc : n ≤ src.length) (hdst : off + n ≤ dst.length) :
    (memcpy dst off src n).length = dst.length := by
  simp [memcpy]; omega

theorem memcpy_front_take (dst src : List Byte) (n : Nat) (hsrc : n ≤ src.length) :
    (memcpy dst 0 src n).take n = src.take n := by
  simp only [memcpy, List.take_zero, List.nil_append, Nat.zero_add]
  rw [List.take_append_of_le_length (by simp; omega)]
  simp

theorem memmove_front (buf : List Byte) (k m : Nat) :
    memmove buf 0 k m = (buf.drop k).take m ++ buf.drop m := by
  simp [memmove, memcpy]

theorem memmove_front_take (buf : List Byte) (k m : Nat) (h : k + m ≤ buf.length) :
    (memmove buf 0 k m).take m = (buf.drop k).take m := by
  rw [memmove_front]
  rw [List.take_append_of_le_length (by simp; omega)]
  simp

theorem memmove_front_length (buf : List Byte) (k m : Nat) (h : k + m ≤ buf.length) :
    (memmove buf 0 k m).length = buf.length := by
  rw [memmove_front]; simp; omega

/-! ## `write_to_buf` -/

theorem wrap_int_eq (x : Int) (hlo : -2147483648 ≤ x) (hhi : x ≤ 2147483647) :
    wrap_int x = x := by
  unfold wrap_int; omega

theorem write_to_buf_fail (string : List Byte) (string_len : Int) (b : Buf)
    (hlo : -2147483648 ≤ string_len + b.buf_datalen)
    (hhi : string_len + b.buf_datalen ≤ 2147483647)
    (h : string_len + b.buf_datalen > b.buflen) :
    write_to_buf string string_len b = (-1, b) := by
  simp [write_to_buf, wrap_int_eq _ hlo hhi, h]

theorem write_to_buf_ok (string : List Byte) (string_len : Int) (b : Buf)
    (hlo : -2147483648 ≤ string_len + b.buf_datalen)
    (h : string_len + b.buf_datalen ≤ b.buflen) :
    write_to_buf string string_len b =
      (b.buf_datalen + string_len,
       { b with buf := memcpy b.buf b.buf_datalen.toNat string string_len.toNat,
                buf_datalen := b.buf_datalen + string_len }) := by
  have hcap := b.buflen_int
  have h' : ¬ (string_len + b.buf_datalen > b.buflen) := by omega
  have e1 := wrap_int_eq (string_len + b.buf_datalen) hlo (by omega)
  have e2 := wrap_int_eq (b.buf_datalen + string_len) (by omega) (by omega)
  simp [write_to_buf, e1, e2, h']

theorem write_to_buf_buf (string : List Byte) (b : Buf) :
    memcpy b.buf b.buf_datalen.toNat string (string.length : Int).toNat
      = b.valid ++ string ++ b.buf.drop (b.buf_datalen.toNat + string.length) := by
  simp [memcpy, Buf.valid]

theorem write_to_buf_valid (string : List Byte) (b : Buf) (h0 : 0 ≤ b.buf_datalen)
    (h : (string.length : Int) + b.buf_datalen ≤ b.buflen) :
    (write_to_buf string string.length b).2.valid = b.valid ++ string := by
  rw [write_to_buf_ok _ _ _ (by omega) h]
  show List.take _ (memcpy _ _ _ _) = _
  rw [write_to_buf_buf]
  have e : (b.buf_datalen + (string.length : Int)).toNat = b.buf_datalen.toNat + string.length := by
    omega
  simp only [e]
  apply take_append_exact
  by_cases hl : b.buf_datalen.toNat ≤ b.buf.length
  · left; simp [Buf.valid, hl]
  · right
    refine ⟨by simp [Buf.valid], ?_⟩
    apply List.drop_of_length_le; omega

/-- Within the range of `int`: when the bytes offered plus the bytes held are
at most `2147483647`, `write_to_buf` reports failure (`-1`) exactly when they
exceed the capacity, and a failed call leaves storage, capacity and
`data_length` as they were. -/
theorem write_to_buf_rejects (b : Buf) (string : List Byte)
    (h0 : 0 ≤ b.buf_datalen) (hint : (string.length : Int) + b.buf_datalen ≤ 2147483647) :
    ((write_to_buf string string.length b).1 = -1 ↔
        (string.length : Int) + b.buf_datalen > b.buflen) ∧
    ((write_to_buf string string.length b).1 = -1 →
        (write_to_buf string string.length b).2 = b) := by
  by_cases h : (string.length : Int) + b.buf_datalen > b.buflen
  · rw [write_to_buf_fail _ _ _ (by omega) hint h]; simp [h]
  · have h' : (string.length : Int) + b.buf_datalen ≤ b.buflen := by omega
    rw [write_to_buf_ok _ _ _ (by omega) h']
    have : b.buf_datalen + (string.length : Int) ≠ -1 := by omega
    simp [h, this]

theorem scenario_bulk_length : ((scenario_bulk.length : Nat) : Int) = 16380 := by
  simp only [scenario_bulk, List.length_replicate]; rfl

theorem scenario_empty_valid : scenario_empty.valid = [] := by
  simp only [Buf.valid, scenario_empty, Int.toNat_zero, List.take_zero]

/-- The capacity scenario of the specification: an empty buffer of capacity
16384 takes 16380 bytes; a further write of 5 bytes is rejected and the buffer
still holds exactly those 16380 bytes. -/
theorem write_to_buf_rejects_scenario :
    0 ≤ (write_to_buf scenario_bulk 16380 scenario_empty).2.buf_datalen ∧
    (write_to_buf scenario_bulk 16380 scenario_empty).1 = 16380 ∧
    (write_to_buf [1, 2, 3, 4, 5] 5 (write_to_buf scenario_bulk 16380 scenario_empty).2).1 = -1 ∧
    (write_to_buf [1, 2, 3, 4, 5] 5 (write_to_buf scenario_bulk 16380 scenario_empty).2).2
      = (write_to_buf scenario_bulk 16380 scenario_empty).2 ∧
    (write_to_buf scenario_bulk 16380 scenario_empty).2.buf_datalen = 16380 ∧
    (write_to_buf scenario_bulk 16380 scenario_empty).2.valid = scenario_bulk := by
  have hfit : (16380 : Int) + scenario_empty.buf_datalen ≤ scenario_empty.buflen := by decide
  have hw := write_to_buf_valid scenario_bulk scenario_empty (by decide)
    (by rw [scenario_bulk_length]; exact hfit)
  rw [scenario_bulk_length, scenario_empty_valid, List.nil_append] at hw
  have hok := write_to_buf_ok scenario_bulk 16380 scenario_empty (by decide) hfit
  have hd : (write_to_buf scenario_bulk 16380 scenario_empty).2.buf_datalen = 16380 := by
    rw [hok]; rfl
  have h0 : 0 ≤ (write_to_buf scenario_bulk 16380 scenario_empty).2.buf_datalen := by
    rw [hd]; decide
  have key := write_to_buf_rejects
    (write_to_buf scenario_bulk 16380 scenario_empty).2 [1, 2, 3, 4, 5] h0
    (by rw [hd]; decide)
  have hfail := key.1.2 (by rw [hd, hok]; decide)
  exact ⟨h0, by rw [hok]; rfl, hfail, key.2 hfail, hd, hw⟩

/-- C1, the code at the failing input: a buffer of capacity 16384 holds one
byte and `2147483647` bytes are offered. They do not fit, yet the 32-bit sum
`string_len + data_length` is `-2147483648`, which is not above the capacity:
`write_to_buf` does not return `-1`; it copies, sets `data_length` to
`-2147483648` and returns that value. -/
theorem write_to_buf_int_overflow :
    (2147483647 : Int) + 1 > 16384 ∧
    wrap_int (2147483647 + 1) = -2147483648 ∧
    (write_to_buf (List.replicate 2147483647 0) 2147483647
      { buf := scenario_empty.buf, buflen := 16384, buf_datalen := 1 }).1 = -2147483648 ∧
    (write_to_buf (List.replicate 2147483647 0) 2147483647
      { buf := scenario_empty.buf, buflen := 16384, buf_datalen := 1 }).1 ≠ -1 ∧
    (write_to_buf (List.replicate 2147483647 0) 2147483647
      { buf := scenario_empty.buf, buflen := 16384, buf_datalen := 1 }).2.buf_datalen
      = -2147483648 ∧
    (write_to_buf (List.replicate 2147483647 0) 2147483647
      { buf := scenario_empty.buf, buflen := 16384, buf_datalen := 1 }).2
      ≠ { buf := scenario_empty.buf, buflen := 16384, buf_datalen := 1 } := by
  have hd : (write_to_buf (List.replicate 2147483647 0) 2147483647
      { buf := scenario_empty.buf, buflen := 16384, buf_datalen := 1 }).2.buf_datalen
      = -2147483648 := rfl
  refine ⟨by decide, by decide, rfl, ?_, hd, ?_⟩
  · show (write_to_buf (List.replicate 2147483647 0) 2147483647
      { buf := scenario_empty.buf, buflen := 16384, buf_datalen := 1 }).1 ≠ -1
    have h1 : (write_to_buf (List.replicate 2147483647 0) 2147483647
      { buf := scenario_empty.buf, buflen := 16384, buf_datalen := 1 }).1 = -2147483648 := rfl
    rw [h1]; decide
  · intro hcon
    have := congrArg Buf.buf_datalen hcon
    rw [hd] at this
    exact absurd this (by decide)

/-- C2: when the bytes offered fit (`len + data_length ≤ capacity`),
`write_to_buf` succeeds, returns the new `data_length`, which is the old one plus
the number of bytes offered, the valid region becomes the old valid region
followed by the bytes offered, and the capacity is unchanged. -/
theorem write_to_buf_appends (b : Buf) (string : List Byte)
    (h0 : 0 ≤ b.buf_datalen)
    (hfit : (string.length : Int) + b.buf_datalen ≤ b.buflen) :
    (write_to_buf string string.length b).1 ≠ -1 ∧
    (write_to_buf string string.length b).1 = b.buf_datalen + string.length ∧
    (write_to_buf string string.length b).2.buf_datalen = b.buf_datalen + string.length ∧
    (write_to_buf string string.length b).2.valid = b.valid ++ string ∧
    (write_to_buf string string.length b).2.buflen = b.buflen := by
  refine ⟨?_, ?_, ?_, write_to_buf_valid string b h0 hfit, ?_⟩
  · rw [write_to_buf_ok _ _ _ (by omega) hfit]
    show b.buf_datalen + (string.length : Int) ≠ -1
    omega
  all_goals rw [write_to_buf_ok _ _ _ (by omega) hfit]

/-- C2 at a concrete buffer: capacity 8 holding `[1, 2]`, three bytes appended. -/
theorem write_to_buf_appends_witness :
    (write_to_buf [3, 4, 5] 3 { buf := [1, 2, 0, 0, 0, 0, 0, 0], buflen := 8, buf_datalen := 2 }).1
      = 5 ∧
    (write_to_buf [3, 4, 5] 3
      { buf := [1, 2, 0, 0, 0, 0, 0, 0], buflen := 8, buf_datalen := 2 }).2.valid
      = [1, 2, 3, 4, 5] := by
  have h := write_to_buf_appends
    { buf := [1, 2, 0, 0, 0, 0, 0, 0], buflen := 8, buf_datalen := 2 } [3, 4, 5]
    (by decide) (by decide)
  exact ⟨h.2.1, h.2.2.2.1⟩

/-! ## `fetch_from_buf` -/

theorem fetch_from_buf_fail (string : List Byte) (string_len : Int) (b : Buf)
    (h : string_len > b.buf_datalen) :
    fetch_from_buf string string_len b = (-1, string, b) := by
  simp [fetch_from_buf, h]

theorem fetch_from_buf_ok (string : List Byte) (string_len : Int) (b : Buf)
    (h : string_len ≤ b.buf_datalen) :
    fetch_from_buf string string_len b =
      (b.buf_datalen - string_len, memcpy string 0 b.buf string_len.toNat,
       { b with buf := memmove b.buf 0 string_len.toNat (b.buf_datalen - string_len).toNat,
                buf_datalen := b.buf_datalen - string_len }) := by
  have h' : ¬ (string_len > b.buf_datalen) := by omega
  simp [fetch_from_buf, h']

theorem fetch_from_buf_out (string : List Byte) (n : Nat) (b : Buf)
    (hn : (n : Int) ≤ b.buf_datalen) (hstore : b.buf_datalen ≤ b.buf.length) :
    (fetch_from_buf string n b).2.1.take n = b.valid.take n := by
  rw [fetch_from_buf_ok _ _ _ hn]
  show (memcpy string 0 b.buf (n : Int).toNat).take n = _
  rw [Int.toNat_ofNat, memcpy_front_take _ _ _ (by omega)]
  simp only [Buf.valid, List.take_take]
  congr 1
  omega

theorem fetch_from_buf_valid (string : List Byte) (n : Nat) (b : Buf)
    (hn : (n : Int) ≤ b.buf_datalen) (hstore : b.buf_datalen ≤ b.buf.length) :
    (fetch_from_buf string n b).2.2.valid = b.valid.drop n := by
  rw [fetch_from_buf_ok _ _ _ hn]
  show (memmove b.buf 0 (n : Int).toNat (b.buf_datalen - n).toNat).take
      (b.buf_datalen - n).toNat = _
  rw [Int.toNat_ofNat, memmove_front_take _ _ _ (by omega)]
  simp only [Buf.valid, List.drop_take]
  congr 1
  omega

/-- C3: when `requested_length ≤ data_length`, `fetch_from_buf` succeeds: the
bytes copied out are the first `requested_length` bytes of the old valid region,
the new valid region is the old one with those bytes dropped, and the value
returned is the new `data_length`, the old one minus `requested_length`. -/
theorem fetch_from_buf_consumes (b : Buf) (string : List Byte) (n : Nat)
    (hn : (n : Int) ≤ b.buf_datalen) (hstore : b.buf_datalen ≤ b.buf.length) :
    (fetch_from_buf string n b).1 ≠ -1 ∧
    (fetch_from_buf string n b).2.1.take n = b.valid.take n ∧
    (fetch_from_buf string n b).2.2.valid = b.valid.drop n ∧
    (fetch_from_buf string n b).1 = b.buf_datalen - n ∧
    (fetch_from_buf string n b).2.2.buf_datalen = b.buf_datalen - n := by
  refine ⟨?_, fetch_from_buf_out string n b hn hstore,
    fetch_from_buf_valid string n b hn hstore, ?_, ?_⟩
  · rw [fetch_from_buf_ok _ _ _ hn]
    show b.buf_datalen - (n : Int) ≠ -1
    omega
  all_goals rw [fetch_from_buf_ok _ _ _ hn]

/-- C3 at a concrete buffer: capacity 6 holding `[1, 2, 3, 4, 5]`, two bytes
fetched into a region that held `[9, 9]`. -/
theorem fetch_from_buf_consumes_witness :
    (fetch_from_buf [9, 9] 2 { buf := [1, 2, 3, 4, 5, 0], buflen := 6, buf_datalen := 5 }).1 = 3 ∧
    (fetch_from_buf [9, 9] 2
      { buf := [1, 2, 3, 4, 5, 0], buflen := 6, buf_datalen := 5 }).2.1.take 2 = [1, 2] ∧
    (fetch_from_buf [9, 9] 2
      { buf := [1, 2, 3, 4, 5, 0], buflen := 6, buf_datalen := 5 }).2.2.valid = [3, 4, 5] := by
  have h := fetch_from_buf_consumes
    { buf := [1, 2, 3, 4, 5, 0], buflen := 6, buf_datalen := 5 } [9, 9] 2
    (by decide) (by decide)
  exact ⟨h.2.2.2.1, h.2.1, h.2.2.1⟩

/-- C4: `fetch_from_buf` reports failure (`-1`) exactly when
`requested_length > data_length`, and a failed call leaves the buffer (storage,
capacity, `data_length`) and the caller's output region as they were. -/
theorem fetch_from_buf_insufficient (b : Buf) (string : List Byte) (n : Nat) :
    ((fetch_from_buf string n b).1 = -1 ↔ (n : Int) > b.buf_datalen) ∧
    ((fetch_from_buf string n b).1 = -1 →
      (fetch_from_buf string n b).2.2 = b ∧ (fetch_from_buf string n b).2.1 = string) := by
  by_cases h : (n : Int) > b.buf_datalen
  · rw [fetch_from_buf_fail _ _ _ h]; simp [h]
  · have h' : (n : Int) ≤ b.buf_datalen := by omega
    rw [fetch_from_buf_ok _ _ _ h']
    have : b.buf_datalen - (n : Int) ≠ -1 := by omega
    simp [h, this]

/-- C4 at a concrete buffer: three bytes held, four requested. -/
theorem fetch_from_buf_insufficient_witness :
    (fetch_from_buf [9, 9, 9, 9] 4 { buf := [1, 2, 3, 0], buflen := 4, buf_datalen := 3 }).1 = -1 ∧
    (fetch_from_buf [9, 9, 9, 9] 4 { buf := [1, 2, 3, 0], buflen := 4, buf_datalen := 3 }).2.2
      = { buf := [1, 2, 3, 0], buflen := 4, buf_datalen := 3 } ∧
    (fetch_from_buf [9, 9, 9, 9] 4 { buf := [1, 2, 3, 0], buflen := 4, buf_datalen := 3 }).2.1
      = [9, 9, 9, 9] := by
  have h := fetch_from_buf_insufficient
    { buf := [1, 2, 3, 0], buflen := 4, buf_datalen := 3 } [9, 9, 9, 9] 4
  have hf := h.1.2 (by decide)
  exact ⟨hf, (h.2 hf).1, (h.2 hf).2⟩

/-! ## Writing, then fetching -/

theorem write_to_buf_store (string : List Byte) (b : Buf)
    (h0 : 0 ≤ b.buf_datalen) (hstore : b.buf_datalen ≤ b.buf.length)
    (hfit : (string.length : Int) + b.buf_datalen ≤ b.buflen) :
    (write_to_buf string string.length b).2.buf_datalen
      ≤ (write_to_buf string string.length b).2.buf.length := by
  rw [write_to_buf_ok _ _ _ (by omega) hfit]
  show b.buf_datalen + (string.length : Int)
      ≤ ((memcpy b.buf b.buf_datalen.toNat string (string.length : Int).toNat).length : Int)
  simp only [memcpy, List.length_append, List.length_take, List.length_drop, Int.toNat_ofNat]
  omega

theorem fetch_from_buf_store (string : List Byte) (n : Nat) (b : Buf)
    (hn : (n : Int) ≤ b.buf_datalen) (hstore : b.buf_datalen ≤ b.buf.length) :
    (fetch_from_buf string n b).2.2.buf_datalen
      ≤ (fetch_from_buf string n b).2.2.buf.length := by
  rw [fetch_from_buf_ok _ _ _ hn]
  show b.buf_datalen - (n : Int)
      ≤ ((memmove b.buf 0 (n : Int).toNat (b.buf_datalen - n).toNat).length : Int)
  rw [Int.toNat_ofNat, memmove_front_length _ _ _ (by omega)]
  omega

/-- C5 (as amended): after a successful `write_to_buf(X)`, `fetch_from_buf(len X)`
succeeds and brings `data_length` back to its value before the write; the bytes
it copies out are the first `len X` bytes of the old valid region followed by
`X`, which is `X` itself when the buffer was empty before the write. -/
theorem write_then_fetch (b : Buf) (X string : List Byte)
    (h0 : 0 ≤ b.buf_datalen) (hstore : b.buf_datalen ≤ b.buf.length)
    (hfit : (X.length : Int) + b.buf_datalen ≤ b.buflen) :
    (write_to_buf X X.length b).1 ≠ -1 ∧
    (fetch_from_buf string X.length (write_to_buf X X.length b).2).1 ≠ -1 ∧
    (fetch_from_buf string X.length (write_to_buf X X.length b).2).1 = b.buf_datalen ∧
    (fetch_from_buf string X.length (write_to_buf X X.length b).2).2.2.buf_datalen
      = b.buf_datalen ∧
    (fetch_from_buf string X.length (write_to_buf X X.length b).2).2.1.take X.length
      = (b.valid ++ X).take X.length ∧
    (b.buf_datalen = 0 →
      (fetch_from_buf string X.length (write_to_buf X X.length b).2).2.1.take X.length = X) := by
  have hd : (write_to_buf X X.length b).2.buf_datalen = b.buf_datalen + X.length := by
    rw [write_to_buf_ok _ _ _ (by omega) hfit]
  have hn : (X.length : Int) ≤ (write_to_buf X X.length b).2.buf_datalen := by
    rw [hd]; omega
  have hs := write_to_buf_store X b h0 hstore hfit
  have hout := fetch_from_buf_out string X.length _ hn hs
  rw [write_to_buf_valid X b h0 hfit] at hout
  have hret : (fetch_from_buf string X.length (write_to_buf X X.length b).2).1
      = b.buf_datalen := by
    rw [fetch_from_buf_ok _ _ _ hn]
    show (write_to_buf X X.length b).2.buf_datalen - (X.length : Int) = b.buf_datalen
    rw [hd]; omega
  refine ⟨?_, ?_, hret, ?_, hout, ?_⟩
  · rw [write_to_buf_ok _ _ _ (by omega) hfit]
    show b.buf_datalen + (X.length : Int) ≠ -1
    omega
  · rw [hret]; omega
  · rw [fetch_from_buf_ok _ _ _ hn]
    show (write_to_buf X X.length b).2.buf_datalen - (X.length : Int) = b.buf_datalen
    rw [hd]; omega
  · intro hz
    rw [hout]
    have : b.valid = [] := by simp [Buf.valid, hz]
    rw [this, List.nil_append, List.take_length]

/-- C5 (as amended) on the specification's scenario: `HELLO` written to an empty
buffer of capacity 16384 and fetched again. -/
theorem write_then_fetch_witness :
    (fetch_from_buf [0, 0, 0, 0, 0] 5
      (write_to_buf [72, 69, 76, 76, 79] 5 scenario_empty).2).1 = 0 ∧
    (fetch_from_buf [0, 0, 0, 0, 0] 5
      (write_to_buf [72, 69, 76, 76, 79] 5 scenario_empty).2).2.1.take 5
      = [72, 69, 76, 76, 79] := by
  have h := write_then_fetch scenario_empty [72, 69, 76, 76, 79] [0, 0, 0, 0, 0]
    (by decide) (by show (0 : Int) ≤ _; exact Int.ofNat_nonneg _) (by decide)
  exact ⟨h.2.2.1, h.2.2.2.2.2 rfl⟩

/-- C5 as stated fails: a buffer holding `[65, 66]` accepts `X = [67, 68]`, and
the fetch of `len X = 2` bytes that follows succeeds but copies out `[65, 66]`,
the oldest bytes, not `X`. -/
theorem write_then_fetch_not_identity :
    (write_to_buf [67, 68] 2 { buf := [65, 66, 0, 0], buflen := 4, buf_datalen := 2 }).1 = 4 ∧
    (fetch_from_buf [0, 0] 2
      (write_to_buf [67, 68] 2 { buf := [65, 66, 0, 0], buflen := 4, buf_datalen := 2 }).2)
      = (2, [65, 66], { buf := [67, 68, 67, 68], buflen := 4, buf_datalen := 2 }) ∧
    (fetch_from_buf [0, 0] 2
      (write_to_buf [67, 68] 2 { buf := [65, 66, 0, 0], buflen := 4, buf_datalen := 2 }).2).2.1
      ≠ [67, 68] := by
  decide

/-! ## FIFO order -/

/-- What a run keeps true: the storage holds the valid bytes, and what was
written is what was fetched followed by what is still held. -/
theorem Run.call_keeps (r r' : Run) (c : Call)
    (h0 : 0 ≤ r.b.buf_datalen) (hstore : r.b.buf_datalen ≤ r.b.buf.length)
    (hfifo : r.written = r.fetched ++ r.b.valid) (hc : r.call c = some r') :
    0 ≤ r'.b.buf_datalen ∧ r'.b.buf_datalen ≤ r'.b.buf.length ∧
      r'.written = r'.fetched ++ r'.b.valid := by
  cases c with
  | write bytes =>
    simp only [Run.call] at hc
    split at hc
    · exact absurd hc (by simp)
    · rename_i hne
      have hint : (bytes.length : Int) + r.b.buf_datalen ≤ 2147483647 := by
        by_contra hcon
        exact hne (Or.inl (by omega))
      have hfit : (bytes.length : Int) + r.b.buf_datalen ≤ r.b.buflen := by
        by_contra hcon
        exact hne (Or.inr (by rw [write_to_buf_fail _ _ _ (by omega) hint (by omega)]))
      injection hc with hc
      subst hc
      refine ⟨?_, write_to_buf_store bytes r.b h0 hstore hfit, ?_⟩
      · show 0 ≤ (write_to_buf bytes bytes.length r.b).2.buf_datalen
        rw [write_to_buf_ok _ _ _ (by omega) hfit]
        show 0 ≤ r.b.buf_datalen + (bytes.length : Int)
        omega
      · show r.written ++ bytes = r.fetched ++ (write_to_buf bytes bytes.length r.b).2.valid
        rw [write_to_buf_valid bytes r.b h0 hfit, hfifo, List.append_assoc]
  | fetch string n =>
    simp only [Run.call] at hc
    split at hc
    · exact absurd hc (by simp)
    · rename_i hne
      have hn : (n : Int) ≤ r.b.buf_datalen := by
        by_contra hcon
        exact hne (by rw [fetch_from_buf_fail _ _ _ (by omega)])
      injection hc with hc
      subst hc
      refine ⟨?_, fetch_from_buf_store string n r.b hn hstore, ?_⟩
      · show 0 ≤ (fetch_from_buf string n r.b).2.2.buf_datalen
        rw [fetch_from_buf_ok _ _ _ hn]
        show 0 ≤ r.b.buf_datalen - (n : Int)
        omega
      · show r.written = (r.fetched ++ (fetch_from_buf string n r.b).2.1.take n)
            ++ (fetch_from_buf string n r.b).2.2.valid
        rw [fetch_from_buf_out string n r.b hn hstore,
          fetch_from_buf_valid string n r.b hn hstore, List.append_assoc,
          List.take_append_drop, hfifo]

theorem Run.calls_keep (cs : List Call) (r r' : Run)
    (h0 : 0 ≤ r.b.buf_datalen) (hstore : r.b.buf_datalen ≤ r.b.buf.length)
    (hfifo : r.written = r.fetched ++ r.b.valid) (hc : r.calls cs = some r') :
    r'.written = r'.fetched ++ r'.b.valid := by
  induction cs generalizing r with
  | nil =>
    simp only [Run.calls, Option.some.injEq] at hc
    subst hc; exact hfifo
  | cons c cs ih =>
    simp only [Run.calls] at hc
    cases hstep : r.call c with
    | none => rw [hstep] at hc; exact absurd hc (by simp)
    | some r1 =>
      rw [hstep] at hc
      obtain ⟨a, b, c⟩ := Run.call_keeps r r1 c h0 hstore hfifo hstep
      exact ih r1 a b c hc

/-- C6: after any sequence of successful `write_to_buf` and `fetch_from_buf`
calls on a buffer that starts empty, the bytes fetched so far are an initial
segment of the bytes written so far, and the valid region is exactly the rest of
the bytes written, in the order they were written. -/
theorem fifo_byte_stream (b0 : Buf) (hempty : b0.buf_datalen = 0) (cs : List Call) (r : Run)
    (hrun : Run.calls { b := b0, written := [], fetched := [] } cs = some r) :
    r.fetched <+: r.written ∧ r.written = r.fetched ++ r.b.valid := by
  have h := Run.calls_keep cs { b := b0, written := [], fetched := [] } r
    (by show 0 ≤ b0.buf_datalen; omega)
    (by show b0.buf_datalen ≤ (b0.buf.length : Int); omega)
    (by show [] = [] ++ b0.valid; simp [Buf.valid, hempty]) hrun
  exact ⟨⟨r.b.valid, h.symm⟩, h⟩

/-- C6 on the specification's scenario: on an empty buffer of capacity 16384,
`write_to_buf("HELLO")` returns 5, and `fetch_from_buf(5)` then yields `HELLO`
and leaves length 0. -/
theorem fifo_byte_stream_witness :
    (write_to_buf scenario_hello 5 scenario_empty).1 = 5 ∧
    (fetch_from_buf [0, 0, 0, 0, 0] 5 (write_to_buf scenario_hello 5 scenario_empty).2).1 = 0 ∧
    ∃ r, Run.calls { b := scenario_empty, written := [], fetched := [] } scenario_calls = some r ∧
      r.written = scenario_hello ∧ r.fetched = scenario_hello ∧
      r.b.buf_datalen = 0 ∧ r.b.valid = [] ∧ r.fetched <+: r.written := by
  refine ⟨rfl, rfl, ?_⟩
  have hrun : Run.calls { b := scenario_empty, written := [], fetched := [] } scenario_calls
      = some
          { b := (fetch_from_buf [0, 0, 0, 0, 0] 5
                    (write_to_buf scenario_hello 5 scenario_empty).2).2.2,
            written := scenario_hello, fetched := scenario_hello } := rfl
  have key := fifo_byte_stream scenario_empty rfl _ _ hrun
  refine ⟨_, hrun, rfl, rfl, rfl, ?_, key.1⟩
  exact (List.self_eq_append_right.mp key.2)

/-! ## `flush_buf` -/

theorem flush_buf_zero (sys : Sys) (s : Int) (b : Buf) (hs : 0 ≤ s) (hd : 0 ≤ b.buf_datalen) :
    flush_buf sys s b 0 = some { ret := 0, b := b, buf_flushlen := 0, trace := [] } := by
  simp [flush_buf, hs, hd]

theorem flush_buf_failed (sys : Sys) (s : Int) (b : Buf) (buf_flushlen : Int)
    (hs : 0 ≤ s) (hle : buf_flushlen ≤ b.buf_datalen) (hne : buf_flushlen ≠ 0)
    (hw : (sys.write s b.buf buf_flushlen).result < 0) :
    flush_buf sys s b buf_flushlen =
      some { ret := if (sys.write s b.buf buf_flushlen).errno ≠ EAGAIN then -1 else 0,
             b := b, buf_flushlen := buf_flushlen,
             trace := [Syscall.write s buf_flushlen] } := by
  simp only [flush_buf, hs, hle, hne, hw, ge_iff_le, and_self, not_true_eq_false, if_false,
    if_true]
  split <;> rfl

theorem flush_buf_wrote (sys : Sys) (s : Int) (b : Buf) (buf_flushlen : Int)
    (hs : 0 ≤ s) (hle : buf_flushlen ≤ b.buf_datalen) (hne : buf_flushlen ≠ 0)
    (hw : 0 ≤ (sys.write s b.buf buf_flushlen).result) :
    flush_buf sys s b buf_flushlen =
      some { ret := buf_flushlen - (sys.write s b.buf buf_flushlen).result,
             b := { b with
                    buf := memmove b.buf 0 (sys.write s b.buf buf_flushlen).result.toNat
                      (b.buf_datalen - (sys.write s b.buf buf_flushlen).result).toNat,
                    buf_datalen := b.buf_datalen - (sys.write s b.buf buf_flushlen).result },
             buf_flushlen := buf_flushlen - (sys.write s b.buf buf_flushlen).result,
             trace := [Syscall.write s buf_flushlen] } := by
  have hw' : ¬ (sys.write s b.buf buf_flushlen).result < 0 := by omega
  simp only [flush_buf, hs, hle, hne, hw', ge_iff_le, and_self, not_true_eq_false, if_false]

/-- C8: with `0 < flush_length ≤ data_length` and a socket write that accepts
`W` bytes, `0 ≤ W ≤ flush_length`, `flush_buf` lowers `data_length` and
`flush_length` by `W`, leaves as valid region the old one without its first `W`
bytes, and returns the new `flush_length`. -/
theorem flush_buf_compacts (sys : Sys) (s : Int) (b : Buf) (buf_flushlen : Int) (W : Nat)
    (hs : 0 ≤ s) (hpos : 0 < buf_flushlen) (hle : buf_flushlen ≤ b.buf_datalen)
    (hstore : b.buf_datalen ≤ b.buf.length)
    (hW : (sys.write s b.buf buf_flushlen).result = W) (hWle : (W : Int) ≤ buf_flushlen) :
    ∃ r, flush_buf sys s b buf_flushlen = some r ∧
      r.b.buf_datalen = b.buf_datalen - W ∧
      r.buf_flushlen = buf_flushlen - W ∧
      r.b.valid = b.valid.drop W ∧
      r.b.buflen = b.buflen ∧
      r.ret = buf_flushlen - W ∧
      r.trace = [Syscall.write s buf_flushlen] := by
  have h := flush_buf_wrote sys s b buf_flushlen hs hle (by omega) (by rw [hW]; omega)
  rw [hW] at h
  refine ⟨_, h, rfl, rfl, ?_, rfl, rfl, rfl⟩
  show (memmove b.buf 0 (W : Int).toNat (b.buf_datalen - W).toNat).take
      (b.buf_datalen - W).toNat = _
  rw [Int.toNat_ofNat, memmove_front_take _ _ _ (by omega)]
  simp only [Buf.valid, List.drop_take]
  congr 1
  omega

/-- C8 at a concrete buffer: five bytes held, four to flush, the socket takes
three. -/
theorem flush_buf_compacts_witness :
    ∃ r, flush_buf scenario_sys 3 { buf := [1, 2, 3, 4, 5, 0], buflen := 6, buf_datalen := 5 } 4
        = some r ∧
      r.b.buf_datalen = 2 ∧ r.buf_flushlen = 1 ∧ r.b.valid = [4, 5] ∧ r.ret = 1 := by
  obtain ⟨r, h, h1, h2, h3, _, h5, _⟩ := flush_buf_compacts scenario_sys 3
    { buf := [1, 2, 3, 4, 5, 0], buflen := 6, buf_datalen := 5 } 4 3
    (by decide) (by decide) (by decide) (by decide) rfl (by decide)
  exact ⟨r, h, h1, h2, h3, h5⟩

theorem flush_buf_repeat_zero (sys : Sys) (s : Int) (b : Buf) (hs : 0 ≤ s)
    (hd : 0 ≤ b.buf_datalen) (n : Nat) :
    flush_buf_repeat sys s n b 0
      = some { ret := 0, b := b, buf_flushlen := 0, trace := [] } := by
  induction n with
  | zero => exact flush_buf_zero sys s b hs hd
  | succ n ih =>
    simp only [flush_buf_repeat, flush_buf_zero sys s b hs hd, Option.some_bind, ih,
      Option.map_some', List.append_nil]

/-- C9: with `flush_length = 0`, `flush_buf` returns 0, issues no system call
and leaves storage, `data_length` and `flush_length` as they were, whatever the
socket would have done; calling it any number of times in a row gives the same
result as calling it once. -/
theorem flush_buf_nothing_to_flush (sys : Sys) (s : Int) (b : Buf)
    (hs : 0 ≤ s) (hd : 0 ≤ b.buf_datalen) (n : Nat) :
    flush_buf sys s b 0 = some { ret := 0, b := b, buf_flushlen := 0, trace := [] } ∧
    flush_buf_repeat sys s n b 0 = flush_buf sys s b 0 := by
  refine ⟨flush_buf_zero sys s b hs hd, ?_⟩
  rw [flush_buf_repeat_zero sys s b hs hd, flush_buf_zero sys s b hs hd]

/-- C9 at a concrete buffer: nothing to flush, eight calls in a row. -/
theorem flush_buf_nothing_to_flush_witness :
    flush_buf scenario_sys 3 { buf := [1, 2, 0], buflen := 3, buf_datalen := 2 } 0
      = some { ret := 0, b := { buf := [1, 2, 0], buflen := 3, buf_datalen := 2 },
               buf_flushlen := 0, trace := [] } ∧
    flush_buf_repeat scenario_sys 3 7 { buf := [1, 2, 0], buflen := 3, buf_datalen := 2 } 0
      = flush_buf scenario_sys 3 { buf := [1, 2, 0], buflen := 3, buf_datalen := 2 } 0 :=
  flush_buf_nothing_to_flush scenario_sys 3 { buf := [1, 2, 0], buflen := 3, buf_datalen := 2 }
    (by decide) (by decide) 7

/-- C10: with `flush_length > 0` and a socket write that fails (negative
result), `flush_buf` returns 0 when `errno` is `EAGAIN` and `-1` for every other
`errno`; either way storage, `data_length` and `flush_length` are unchanged. -/
theorem flush_buf_write_error (sys : Sys) (s : Int) (b : Buf) (buf_flushlen : Int)
    (hs : 0 ≤ s) (hpos : 0 < buf_flushlen) (hle : buf_flushlen ≤ b.buf_datalen)
    (hfail : (sys.write s b.buf buf_flushlen).result < 0) :
    ∃ r, flush_buf sys s b buf_flushlen = some r ∧
      r.b = b ∧ r.buf_flushlen = buf_flushlen ∧
      ((sys.write s b.buf buf_flushlen).errno = EAGAIN → r.ret = 0) ∧
      ((sys.write s b.buf buf_flushlen).errno ≠ EAGAIN → r.ret = -1) := by
  refine ⟨_, flush_buf_failed sys s b buf_flushlen hs hle (by omega) hfail, rfl, rfl, ?_, ?_⟩
  · intro he; simp [he]
  · intro he; simp [he]

/-- C10 at a concrete buffer: the write fails with `EAGAIN`, then with another
`errno`. -/
theorem flush_buf_write_error_witness :
    (∃ r, flush_buf (scenario_sys_failing EAGAIN) 3
        { buf := [1, 2, 0], buflen := 3, buf_datalen := 2 } 2 = some r ∧
      r.b = { buf := [1, 2, 0], buflen := 3, buf_datalen := 2 } ∧ r.buf_flushlen = 2 ∧
      r.ret = 0) ∧
    (∃ r, flush_buf (scenario_sys_failing 32) 3
        { buf := [1, 2, 0], buflen := 3, buf_datalen := 2 } 2 = some r ∧
      r.b = { buf := [1, 2, 0], buflen := 3, buf_datalen := 2 } ∧ r.buf_flushlen = 2 ∧
      r.ret = -1) := by
  constructor
  · obtain ⟨r, h, h1, h2, h3, _⟩ := flush_buf_write_error (scenario_sys_failing EAGAIN) 3
      { buf := [1, 2, 0], buflen := 3, buf_datalen := 2 } 2
      (by decide) (by decide) (by decide) (by decide)
    exact ⟨r, h, h1, h2, h3 rfl⟩
  · obtain ⟨r, h, h1, h2, _, h4⟩ := flush_buf_write_error (scenario_sys_failing 32) 3
      { buf := [1, 2, 0], buflen := 3, buf_datalen := 2 } 2
      (by decide) (by decide) (by decide) (by decide)
    exact ⟨r, h, h1, h2, h4 (by decide)⟩

/-! ## The invariant -/

theorem to_size_t_le (k : Consts) (x : Int) (hx : 0 ≤ x) : to_size_t k x ≤ x := by
  unfold to_size_t
  have hm : (0 : Int) < (2 : Int) ^ k.size_t_bits := by positivity
  by_cases h : x < (2 : Int) ^ k.size_t_bits
  · rw [Int.emod_eq_of_lt hx h]
  · have := Int.emod_lt_of_pos x hm
    omega

theorem write_to_buf_inv (b : Buf) (buf_flushlen : Int) (hinv : Inv b buf_flushlen)
    (string : List Byte) (hint : (string.length : Int) + b.buf_datalen ≤ 2147483647) :
    Inv (write_to_buf string string.length b).2 buf_flushlen := by
  obtain ⟨h1, h2, h3⟩ := hinv
  by_cases h : (string.length : Int) + b.buf_datalen > b.buflen
  · rw [write_to_buf_fail _ _ _ (by omega) hint h]; exact ⟨h1, h2, h3⟩
  · rw [write_to_buf_ok _ _ _ (by omega) (by omega)]
    refine ⟨h1, ?_, ?_⟩
    · show buf_flushlen ≤ b.buf_datalen + (string.length : Int); omega
    · show b.buf_datalen + (string.length : Int) ≤ b.buflen; omega

theorem read_to_buf_inv (b : Buf) (buf_flushlen : Int) (hinv : Inv b buf_flushlen)
    (k : Consts) (options : or_options_t) (sys : Sys) (s at_most reached_eof : Int)
    (hs : 0 ≤ s) (hsys : sys.respects)
    (hk : k.CELL_PAYLOAD_SIZE - k.TOPIC_HEADER_SIZE ≤ k.sizeof_cell_t) :
    ∃ r, read_to_buf k options sys s at_most b reached_eof = some r ∧
      Inv r.b buf_flushlen := by
  obtain ⟨h1, h2, h3⟩ := hinv
  have hread := hsys.1 s
  simp only [read_to_buf, hs, ge_iff_le, not_true_eq_false, if_false]
  generalize hA : (if at_most < 0 ∨ b.buflen - b.buf_datalen < at_most then
      b.buflen - b.buf_datalen else at_most) = A
  have hA0 : 0 ≤ A ∧ A ≤ b.buflen - b.buf_datalen := by
    rw [← hA]; split <;> omega
  by_cases hz : A = 0
  · rw [if_pos hz]; exact ⟨_, rfl, h1, h2, h3⟩
  · rw [if_neg hz]
    generalize hB : (if options.LinkPadding = 0 ∧ to_size_t k A > 10 * (k.sizeof_cell_t : Int)
      then 10 * (k.CELL_PAYLOAD_SIZE - k.TOPIC_HEADER_SIZE) else A) = B
    have hB0 : B ≤ b.buflen - b.buf_datalen := by
      rw [← hB]
      split
      · rename_i hc
        have := to_size_t_le k A hA0.1
        omega
      · omega
    have hr := hread B
    by_cases hneg : (sys.read s B).result < 0
    · rw [if_pos hneg]
      split <;> exact ⟨_, rfl, h1, h2, h3⟩
    · rw [if_neg hneg]
      by_cases hzero : (sys.read s B).result = 0
      · rw [if_pos hzero]; exact ⟨_, rfl, h1, h2, h3⟩
      · rw [if_neg hzero]
        refine ⟨_, rfl, h1, ?_, ?_⟩
        · show buf_flushlen ≤ b.buf_datalen + (sys.read s B).result; omega
        · show b.buf_datalen + (sys.read s B).result ≤ b.buflen; omega

theorem flush_buf_inv (b : Buf) (buf_flushlen : Int) (hinv : Inv b buf_flushlen)
    (sys : Sys) (s : Int) (hs : 0 ≤ s) (hsys : sys.respects) :
    ∃ r, flush_buf sys s b buf_flushlen = some r ∧ Inv r.b r.buf_flushlen := by
  obtain ⟨h1, h2, h3⟩ := hinv
  by_cases hz : buf_flushlen = 0
  · subst hz
    exact ⟨_, flush_buf_zero sys s b hs (by omega), le_refl _, h2, h3⟩
  · have hw := hsys.2 s b.buf buf_flushlen
    by_cases hneg : (sys.write s b.buf buf_flushlen).result < 0
    · exact ⟨_, flush_buf_failed sys s b buf_flushlen hs h2 hz hneg, h1, h2, h3⟩
    · refine ⟨_, flush_buf_wrote sys s b buf_flushlen hs h2 hz (by omega), ?_, ?_, ?_⟩
      · show 0 ≤ buf_flushlen - (sys.write s b.buf buf_flushlen).result; omega
      · show buf_flushlen - (sys.write s b.buf buf_flushlen).result
            ≤ b.buf_datalen - (sys.write s b.buf buf_flushlen).result
        omega
      · show b.buf_datalen - (sys.write s b.buf buf_flushlen).result ≤ b.buflen; omega

theorem fetch_from_buf_inv (b : Buf) (buf_flushlen : Int) (hinv : Inv b buf_flushlen)
    (string : List Byte) (n : Nat) :
    0 ≤ (fetch_from_buf string n b).2.2.buf_datalen ∧
    (fetch_from_buf string n b).2.2.buf_datalen ≤ (fetch_from_buf string n b).2.2.buflen ∧
    (fetch_from_buf string n b).2.2.buf_datalen ≤ b.buf_datalen ∧
    (fetch_from_buf string n b).2.2.buflen = b.buflen ∧
    (Inv (fetch_from_buf string n b).2.2 buf_flushlen ↔
      (b.buf_datalen < n ∨ (n : Int) ≤ b.buf_datalen - buf_flushlen)) := by
  obtain ⟨h1, h2, h3⟩ := hinv
  by_cases h : (n : Int) > b.buf_datalen
  · rw [fetch_from_buf_fail _ _ _ h]
    refine ⟨by show 0 ≤ b.buf_datalen; omega, h3, le_refl _, rfl, ?_⟩
    constructor
    · intro _; left; omega
    · intro _; exact ⟨h1, h2, h3⟩
  · rw [fetch_from_buf_ok _ _ _ (by omega)]
    refine ⟨by show 0 ≤ b.buf_datalen - (n : Int); omega,
      by show b.buf_datalen - (n : Int) ≤ b.buflen; omega,
      by show b.buf_datalen - (n : Int) ≤ b.buf_datalen; omega, rfl, ?_⟩
    constructor
    · intro hi
      have : buf_flushlen ≤ b.buf_datalen - (n : Int) := hi.2.1
      right; omega
    · intro hc
      refine ⟨h1, ?_, ?_⟩
      · show buf_flushlen ≤ b.buf_datalen - (n : Int); omega
      · show b.buf_datalen - (n : Int) ≤ b.buflen; omega

theorem compress_from_buf_inv (b : Buf) (buf_flushlen : Int) (hinv : Inv b buf_flushlen)
    (deflate : Codec) (hc : deflate.respects) (string : List Byte) (string_len : Int)
    (hlen : 0 ≤ string_len) (z : z_stream) (flush : Int) :
    0 ≤ (compress_from_buf deflate string string_len b z flush).b_in.buf_datalen ∧
    (compress_from_buf deflate string string_len b z flush).b_in.buf_datalen
      ≤ (compress_from_buf deflate string string_len b z flush).b_in.buflen ∧
    (compress_from_buf deflate string string_len b z flush).b_in.buf_datalen ≤ b.buf_datalen ∧
    (compress_from_buf deflate string string_len b z flush).b_in.buflen = b.buflen := by
  obtain ⟨h1, h2, h3⟩ := hinv
  have hd : 0 ≤ b.buf_datalen := by omega
  have hco := hc { z with next_in := 0, avail_in := b.buf_datalen, next_out := 0,
                          avail_out := string_len } b.buf flush hd hlen
  simp only [compress_from_buf]
  split
  · exact ⟨hd, h3, le_refl _, rfl⟩
  · split
    · exact ⟨hco.1.1, le_trans hco.1.2 h3, hco.1.2, rfl⟩
    · split <;> exact ⟨hd, h3, le_refl _, rfl⟩

theorem decompress_source_inv (b : Buf) (buf_flushlen : Int) (hinv : Inv b buf_flushlen)
    (inflate : Codec) (hc : inflate.respects) (b_out : Buf)
    (hout : b_out.buf_datalen ≤ b_out.buflen) (z : z_stream) (flush : Int) :
    0 ≤ (decompress_buf_to_buf inflate b b_out z flush).b_in.buf_datalen ∧
    (decompress_buf_to_buf inflate b b_out z flush).b_in.buf_datalen
      ≤ (decompress_buf_to_buf inflate b b_out z flush).b_in.buflen ∧
    (decompress_buf_to_buf inflate b b_out z flush).b_in.buf_datalen ≤ b.buf_datalen ∧
    (decompress_buf_to_buf inflate b b_out z flush).b_in.buflen = b.buflen := by
  obtain ⟨h1, h2, h3⟩ := hinv
  have hd : 0 ≤ b.buf_datalen := by omega
  have hco := hc { z with next_in := 0, avail_in := b.buf_datalen,
                          next_out := b_out.buf_datalen.toNat,
                          avail_out := b_out.buflen - b_out.buf_datalen } b.buf flush hd
    (by show 0 ≤ b_out.buflen - b_out.buf_datalen; omega)
  simp only [decompress_buf_to_buf]
  split
  · exact ⟨hd, h3, le_refl _, rfl⟩
  · split
    · exact ⟨hco.1.1, le_trans hco.1.2 h3, hco.1.2, rfl⟩
    · split <;> exact ⟨hd, h3, le_refl _, rfl⟩

theorem decompress_dest_inv (b : Buf) (buf_flushlen : Int) (hinv : Inv b buf_flushlen)
    (inflate : Codec) (hc : inflate.respects) (b_in : Buf)
    (hin : 0 ≤ b_in.buf_datalen) (z : z_stream) (flush : Int) :
    Inv (decompress_buf_to_buf inflate b_in b z flush).b_out buf_flushlen := by
  obtain ⟨h1, h2, h3⟩ := hinv
  have hco := hc { z with next_in := 0, avail_in := b_in.buf_datalen,
                          next_out := b.buf_datalen.toNat,
                          avail_out := b.buflen - b.buf_datalen } b_in.buf flush hin
    (by show 0 ≤ b.buflen - b.buf_datalen; omega)
  simp only [decompress_buf_to_buf]
  split
  · exact ⟨h1, h2, h3⟩
  · split
    · have h4 := hco.2.1
      have h5 := hco.2.2
      simp only at h4 h5
      refine ⟨h1, ?_, ?_⟩
      · show buf_flushlen ≤ b.buflen - _; omega
      · show b.buflen - _ ≤ b.buflen; omega
    · split <;> exact ⟨h1, h2, h3⟩

theorem scenario_sys_respects : scenario_sys.respects := by
  constructor
  · intro s count
    show count < 0 ∨ (0 ≤ count ∧ count ≤ count)
    omega
  · intro s mem count
    show count - 1 < 0 ∨ (0 ≤ count - 1 ∧ count - 1 ≤ count)
    omega

theorem scenario_codec_respects : Codec.respects scenario_codec := by
  intro z mem flush hin hout
  exact ⟨⟨le_refl _, hin⟩, ⟨hout, le_refl _⟩⟩

/-- C7 (as amended): from a state with `0 ≤ flush_length ≤ data_length ≤ capacity`,
`write_to_buf` (for bytes whose count plus `data_length` is a value of type
`int`), `read_to_buf`, `flush_buf` and `decompress_buf_to_buf` on its
destination lead to a state with the same property, for every socket and codec
that keeps its contract (for `read_to_buf`, with constants such that a cell
payload without its topic header is no larger than a cell). `fetch_from_buf`,
`compress_from_buf` and `decompress_buf_to_buf` on its source keep
`0 ≤ data_length ≤ capacity`, never raise `data_length` and leave the capacity
as it was, but they have no access to `flush_length`: after `fetch_from_buf`
the whole property holds exactly when the call failed or fetched at most
`data_length - flush_length` bytes. -/
theorem invariant_preserved (b : Buf) (buf_flushlen : Int) (hinv : Inv b buf_flushlen) :
    (∀ string : List Byte, (string.length : Int) + b.buf_datalen ≤ 2147483647 →
      Inv (write_to_buf string string.length b).2 buf_flushlen) ∧
    (∀ (k : Consts) (options : or_options_t) (sys : Sys) (s at_most reached_eof : Int),
      0 ≤ s → sys.respects →
      k.CELL_PAYLOAD_SIZE - k.TOPIC_HEADER_SIZE ≤ k.sizeof_cell_t →
      ∃ r, read_to_buf k options sys s at_most b reached_eof = some r ∧
        Inv r.b buf_flushlen) ∧
    (∀ (sys : Sys) (s : Int), 0 ≤ s → sys.respects →
      ∃ r, flush_buf sys s b buf_flushlen = some r ∧ Inv r.b r.buf_flushlen) ∧
    (∀ (inflate : Codec) (b_in : Buf) (z : z_stream) (flush : Int),
      Codec.respects inflate → 0 ≤ b_in.buf_datalen →
      Inv (decompress_buf_to_buf inflate b_in b z flush).b_out buf_flushlen) ∧
    (∀ (string : List Byte) (n : Nat),
      0 ≤ (fetch_from_buf string n b).2.2.buf_datalen ∧
      (fetch_from_buf string n b).2.2.buf_datalen ≤ (fetch_from_buf string n b).2.2.buflen ∧
      (fetch_from_buf string n b).2.2.buf_datalen ≤ b.buf_datalen ∧
      (fetch_from_buf string n b).2.2.buflen = b.buflen ∧
      (Inv (fetch_from_buf string n b).2.2 buf_flushlen ↔
        (b.buf_datalen < n ∨ (n : Int) ≤ b.buf_datalen - buf_flushlen))) ∧
    (∀ (deflate : Codec) (string : List Byte) (string_len : Int) (z : z_stream) (flush : Int),
      Codec.respects deflate → 0 ≤ string_len →
      0 ≤ (compress_from_buf deflate string string_len b z flush).b_in.buf_datalen ∧
      (compress_from_buf deflate string string_len b z flush).b_in.buf_datalen
        ≤ (compress_from_buf deflate string string_len b z flush).b_in.buflen ∧
      (compress_from_buf deflate string string_len b z flush).b_in.buf_datalen
        ≤ b.buf_datalen ∧
      (compress_from_buf deflate string string_len b z flush).b_in.buflen = b.buflen) ∧
    (∀ (inflate : Codec) (b_out : Buf) (z : z_stream) (flush : Int),
      Codec.respects inflate → b_out.buf_datalen ≤ b_out.buflen →
      0 ≤ (decompress_buf_to_buf inflate b b_out z flush).b_in.buf_datalen ∧
      (decompress_buf_to_buf inflate b b_out z flush).b_in.buf_datalen
        ≤ (decompress_buf_to_buf inflate b b_out z flush).b_in.buflen ∧
      (decompress_buf_to_buf inflate b b_out z flush).b_in.buf_datalen ≤ b.buf_datalen ∧
      (decompress_buf_to_buf inflate b b_out z flush).b_in.buflen = b.buflen) := by
  refine ⟨write_to_buf_inv b buf_flushlen hinv, ?_, ?_, ?_,
    fetch_from_buf_inv b buf_flushlen hinv, ?_, ?_⟩
  · intro k options sys s at_most reached_eof hs hsys hk
    exact read_to_buf_inv b buf_flushlen hinv k options sys s at_most reached_eof hs hsys hk
  · intro sys s hs hsys
    exact flush_buf_inv b buf_flushlen hinv sys s hs hsys
  · intro inflate b_in z flush hc hin
    exact decompress_dest_inv b buf_flushlen hinv inflate hc b_in hin z flush
  · intro deflate string string_len z flush hc hlen
    exact compress_from_buf_inv b buf_flushlen hinv deflate hc string string_len hlen z flush
  · intro inflate b_out z flush hc hout
    exact decompress_source_inv b buf_flushlen hinv inflate hc b_out hout z flush

/-- C7 (as amended) at a concrete state: capacity 4, two bytes held, one of them
still to flush. Appending keeps the invariant, flushing through a socket that
keeps its contract keeps it, so does fetching the one byte that is not owed to
the socket, and so does decompressing into the buffer. -/
theorem invariant_preserved_witness :
    Inv { buf := [1, 2, 0, 0], buflen := 4, buf_datalen := 2 } 1 ∧
    Inv (write_to_buf [3] 1 { buf := [1, 2, 0, 0], buflen := 4, buf_datalen := 2 }).2 1 ∧
    (∃ r, flush_buf scenario_sys 3 { buf := [1, 2, 0, 0], buflen := 4, buf_datalen := 2 } 1
        = some r ∧ Inv r.b r.buf_flushlen) ∧
    Inv (fetch_from_buf [0] 1 { buf := [1, 2, 0, 0], buflen := 4, buf_datalen := 2 }).2.2 1 ∧
    Inv (decompress_buf_to_buf scenario_codec
          { buf := [7, 8, 9], buflen := 3, buf_datalen := 3 }
          { buf := [1, 2, 0, 0], buflen := 4, buf_datalen := 2 }
          { next_in := 0, avail_in := 0, next_out := 0, avail_out := 0, state := 0 } 0).b_out
      1 := by
  have h := invariant_preserved { buf := [1, 2, 0, 0], buflen := 4, buf_datalen := 2 } 1
    (by decide)
  exact ⟨by decide, h.1 [3] (by decide),
    h.2.2.1 scenario_sys 3 (by decide) scenario_sys_respects,
    (h.2.2.2.2.1 [0] 1).2.2.2.2.2 (Or.inr (by decide)),
    h.2.2.2.1 scenario_codec { buf := [7, 8, 9], buflen := 3, buf_datalen := 3 }
      { next_in := 0, avail_in := 0, next_out := 0, avail_out := 0, state := 0 } 0
      scenario_codec_respects (by decide)⟩

/-- C7 as stated fails: in a state that satisfies the invariant (capacity 4,
two bytes held, both still to flush) `fetch_from_buf` of one byte succeeds
and leaves `data_length = 1` below the untouched `flush_length = 2`. -/
theorem fetch_from_buf_breaks_invariant :
    Inv { buf := [1, 2, 0, 0], buflen := 4, buf_datalen := 2 } 2 ∧
    (fetch_from_buf [0] 1 { buf := [1, 2, 0, 0], buflen := 4, buf_datalen := 2 }).1 = 1 ∧
    (fetch_from_buf [0] 1 { buf := [1, 2, 0, 0], buflen := 4, buf_datalen := 2 }).2.2.buf_datalen
      = 1 ∧
    ¬ Inv (fetch_from_buf [0] 1 { buf := [1, 2, 0, 0], buflen := 4, buf_datalen := 2 }).2.2 2 := by
  decide

/-! ## `read_to_buf` -/

theorem read_to_buf_idle (k : Consts) (options : or_options_t) (sys : Sys)
    (s at_most reached_eof : Int) (b : Buf) (hs : 0 ≤ s)
    (hcap : read_to_buf_cap at_most b = 0) :
    read_to_buf k options sys s at_most b reached_eof
      = some { ret := 0, b := b, reached_eof := reached_eof, trace := [] } := by
  unfold read_to_buf_cap at hcap
  simp only [read_to_buf, hs, ge_iff_le, not_true_eq_false, if_false, hcap, if_true]

theorem read_to_buf_reads (k : Consts) (options : or_options_t) (sys : Sys)
    (s at_most reached_eof : Int) (b : Buf) (hs : 0 ≤ s)
    (hcap : read_to_buf_cap at_most b ≠ 0) :
    read_to_buf k options sys s at_most b reached_eof
      = some
          { ret :=
              if (sys.read s (read_to_buf_count k options at_most b)).result < 0 then
                (if (sys.read s (read_to_buf_count k options at_most b)).errno ≠ EAGAIN
                  then -1 else 0)
              else (sys.read s (read_to_buf_count k options at_most b)).result,
            b :=
              if (sys.read s (read_to_buf_count k options at_most b)).result ≤ 0 then b
              else
                { b with
                  buf := memcpy b.buf b.buf_datalen.toNat
                    (sys.read s (read_to_buf_count k options at_most b)).data
                    (sys.read s (read_to_buf_count k options at_most b)).result.toNat,
                  buf_datalen := b.buf_datalen
                    + (sys.read s (read_to_buf_count k options at_most b)).result },
            reached_eof :=
              if (sys.read s (read_to_buf_count k options at_most b)).result = 0 then 1
              else reached_eof,
            trace := [Syscall.read s (read_to_buf_count k options at_most b)] } := by
  unfold read_to_buf_count
  unfold read_to_buf_cap at hcap ⊢
  simp only [read_to_buf, hs, ge_iff_le, not_true_eq_false, if_false, hcap]
  generalize sys.read s _ = o
  by_cases h1 : o.result < 0
  · have h2 : o.result ≤ 0 := by omega
    have h3 : o.result ≠ 0 := by omega
    simp only [h1, h2, h3, if_true, if_false]
    split <;> rfl
  · by_cases h3 : o.result = 0
    · simp [h3]
    · have h2 : ¬ o.result ≤ 0 := by omega
      simp only [h1, h2, h3, if_false]

theorem memcpy_append_take (buf src : List Byte) (d n : Nat) (hn : n ≤ src.length) :
    (memcpy buf d src n).take (d + n) = buf.take d ++ src.take n := by
  unfold memcpy
  have hS : (src.take n).length = n := by simp; omega
  have := take_append_exact (buf.take d) (src.take n) (buf.drop (d + n)) d (by
    by_cases hl : d ≤ buf.length
    · left; simp [hl]
    · right
      refine ⟨by simp, ?_⟩
      apply List.drop_of_length_le; omega)
  rw [hS] at this
  exact this

theorem read_to_buf_cap_eq (at_most : Int) (b : Buf) :
    read_to_buf_cap at_most b = effective_cap at_most b := by
  unfold read_to_buf_cap effective_cap
  by_cases h : 0 ≤ at_most
  · rw [if_pos h]
    by_cases h2 : b.buflen - b.buf_datalen < at_most
    · rw [if_pos (Or.inr h2), min_eq_right (by omega)]
    · rw [if_neg (by omega), min_eq_left (by omega)]
  · rw [if_neg h, if_pos (Or.inl (by omega))]

theorem read_to_buf_count_padding (k : Consts) (options : or_options_t) (at_most : Int)
    (b : Buf) (hpad : options.LinkPadding ≠ 0) :
    read_to_buf_count k options at_most b = read_to_buf_cap at_most b := by
  unfold read_to_buf_count
  rw [if_neg (by intro h; exact hpad h.1)]

/-- C12: with link padding enabled and a non-zero effective cap
`min(at_most if ≥ 0 else ∞, capacity − data_length)`, `read_to_buf` issues one
`read` for exactly that many bytes; and whatever the padding flag, when the
effective cap is 0 (that is, for a buffer with `data_length ≤ capacity`, when
`at_most = 0` or the buffer is full) it returns 0, issues no `read`, and leaves
storage, `data_length` and `reached_eof` as they were. -/
theorem read_to_buf_effective_cap (k : Consts) (options : or_options_t) (sys : Sys)
    (s at_most reached_eof : Int) (b : Buf) (hs : 0 ≤ s) :
    (options.LinkPadding ≠ 0 → effective_cap at_most b ≠ 0 →
      ∃ r, read_to_buf k options sys s at_most b reached_eof = some r ∧
        r.trace = [Syscall.read s (effective_cap at_most b)]) ∧
    (effective_cap at_most b = 0 →
      read_to_buf k options sys s at_most b reached_eof
        = some { ret := 0, b := b, reached_eof := reached_eof, trace := [] }) ∧
    (b.buf_datalen ≤ b.buflen →
      (effective_cap at_most b = 0 ↔ (at_most = 0 ∨ b.buf_datalen = b.buflen))) := by
  refine ⟨?_, ?_, ?_⟩
  · intro hpad hcap
    rw [← read_to_buf_cap_eq] at hcap ⊢
    refine ⟨_, read_to_buf_reads k options sys s at_most reached_eof b hs hcap, ?_⟩
    show [Syscall.read s (read_to_buf_count k options at_most b)] = _
    rw [read_to_buf_count_padding k options at_most b hpad]
  · intro hcap
    rw [← read_to_buf_cap_eq] at hcap
    exact read_to_buf_idle k options sys s at_most reached_eof b hs hcap
  · intro hd
    unfold effective_cap
    by_cases h : 0 ≤ at_most
    · rw [if_pos h]
      by_cases h2 : at_most ≤ b.buflen - b.buf_datalen
      · rw [min_eq_left h2]; omega
      · rw [min_eq_right (by omega)]; omega
    · rw [if_neg h]; omega

/-- C12 at concrete buffers, link padding enabled: with `at_most = -1` and 1200
bytes free the request is for 1200 bytes; with `at_most = 0` nothing is read. -/
theorem read_to_buf_effective_cap_witness :
    (∃ r, read_to_buf scenario_consts { LinkPadding := 1 } scenario_sys 3 (-1)
        { buf := scenario_empty.buf, buflen := 16384, buf_datalen := 15184 } 0 = some r ∧
      r.trace = [Syscall.read 3 1200]) ∧
    read_to_buf scenario_consts { LinkPadding := 1 } scenario_sys 3 0 scenario_empty 0
      = some { ret := 0, b := scenario_empty, reached_eof := 0, trace := [] } := by
  have h1 := read_to_buf_effective_cap scenario_consts { LinkPadding := 1 } scenario_sys 3 (-1) 0
    { buf := scenario_empty.buf, buflen := 16384, buf_datalen := 15184 } (by decide)
  have h2 := read_to_buf_effective_cap scenario_consts { LinkPadding := 1 } scenario_sys 3 0 0
    scenario_empty (by decide)
  exact ⟨h1.1 (by decide) (by decide), h2.2.1 (by decide)⟩

/-- C13: when `read_to_buf` issues a `read` (its cap is not 0), the result of the
`read` decides the outcome. A negative result gives `-1` unless `errno` is
`EAGAIN`, which gives 0; a result of 0 sets `reached_eof` to 1 and gives 0; in
these cases the buffer is unchanged, and `reached_eof` is written only in the
last one. A result `N > 0` gives `N`, raises `data_length` by `N`, and the valid
region becomes the old one followed by the `N` bytes read. -/
theorem read_to_buf_outcomes (k : Consts) (options : or_options_t) (sys : Sys)
    (s at_most reached_eof : Int) (b : Buf) (hs : 0 ≤ s) (hd : 0 ≤ b.buf_datalen)
    (hcap : read_to_buf_cap at_most b ≠ 0) :
    ∃ r, read_to_buf k options sys s at_most b reached_eof = some r ∧
      r.trace = [Syscall.read s (read_to_buf_count k options at_most b)] ∧
      ((sys.read s (read_to_buf_count k options at_most b)).result < 0 →
        (sys.read s (read_to_buf_count k options at_most b)).errno ≠ EAGAIN →
        r.ret = -1 ∧ r.b = b ∧ r.reached_eof = reached_eof) ∧
      ((sys.read s (read_to_buf_count k options at_most b)).result < 0 →
        (sys.read s (read_to_buf_count k options at_most b)).errno = EAGAIN →
        r.ret = 0 ∧ r.b = b ∧ r.reached_eof = reached_eof) ∧
      ((sys.read s (read_to_buf_count k options at_most b)).result = 0 →
        r.ret = 0 ∧ r.b = b ∧ r.reached_eof = 1) ∧
      (∀ N : Nat, 0 < N →
        (sys.read s (read_to_buf_count k options at_most b)).result = N →
        (sys.read s (read_to_buf_count k options at_most b)).data.length = N →
        r.ret = N ∧ r.b.buf_datalen = b.buf_datalen + N ∧
        r.b.valid = b.valid ++ (sys.read s (read_to_buf_count k options at_most b)).data ∧
        r.b.buflen = b.buflen ∧ r.reached_eof = reached_eof) := by
  refine ⟨_, read_to_buf_reads k options sys s at_most reached_eof b hs hcap, rfl, ?_, ?_, ?_, ?_⟩
  · intro h1 h2
    have h3 : (sys.read s (read_to_buf_count k options at_most b)).result ≤ 0 := by omega
    have h4 : (sys.read s (read_to_buf_count k options at_most b)).result ≠ 0 := by omega
    simp only [h1, h2, h3, h4, if_true, if_false, ne_eq, not_false_eq_true, and_self]
  · intro h1 h2
    have h3 : (sys.read s (read_to_buf_count k options at_most b)).result ≤ 0 := by omega
    have h4 : (sys.read s (read_to_buf_count k options at_most b)).result ≠ 0 := by omega
    simp only [h1, h2, h3, h4, if_true, if_false, ne_eq, not_true_eq_false, and_self]
  · intro h1
    simp only [h1, lt_self_iff_false, le_refl, if_true, if_false, and_self]
  · intro N hN h1 h2
    have h3 : ¬ ((N : Int) < 0) := by omega
    have h4 : ¬ ((N : Int) ≤ 0) := by omega
    have h5 : ¬ ((N : Int) = 0) := by omega
    simp only [h1, h3, h4, h5, if_false, true_and]
    refine ⟨?_, trivial⟩
    show (memcpy b.buf b.buf_datalen.toNat _ (N : Int).toNat).take
        (b.buf_datalen + (N : Int)).toNat = _
    have e : (b.buf_datalen + (N : Int)).toNat = b.buf_datalen.toNat + N := by omega
    rw [e, Int.toNat_ofNat, memcpy_append_take _ _ _ _ (by omega), ← h2, List.take_length]
    rfl

/-- C13 at a concrete buffer (capacity 6 holding `[1, 2]`, `at_most = 3`): a
`read` of three bytes, a `read` that would block, and a `read` that fails. -/
theorem read_to_buf_outcomes_witness :
    (∃ r, read_to_buf scenario_consts { LinkPadding := 1 } scenario_sys 3 3
        { buf := [1, 2, 0, 0, 0, 0], buflen := 6, buf_datalen := 2 } 0 = some r ∧
      r.ret = 3 ∧ r.b.buf_datalen = 5 ∧ r.b.valid = [1, 2, 0, 0, 0] ∧ r.reached_eof = 0) ∧
    (∃ r, read_to_buf scenario_consts { LinkPadding := 1 } (scenario_sys_failing EAGAIN) 3 3
        { buf := [1, 2, 0, 0, 0, 0], buflen := 6, buf_datalen := 2 } 0 = some r ∧
      r.ret = 0 ∧ r.b = { buf := [1, 2, 0, 0, 0, 0], buflen := 6, buf_datalen := 2 } ∧
      r.reached_eof = 0) ∧
    (∃ r, read_to_buf scenario_consts { LinkPadding := 1 } (scenario_sys_failing 32) 3 3
        { buf := [1, 2, 0, 0, 0, 0], buflen := 6, buf_datalen := 2 } 0 = some r ∧
      r.ret = -1 ∧ r.b = { buf := [1, 2, 0, 0, 0, 0], buflen := 6, buf_datalen := 2 } ∧
      r.reached_eof = 0) := by
  refine ⟨?_, ?_, ?_⟩
  · obtain ⟨r, h, _, _, _, _, h5⟩ := read_to_buf_outcomes scenario_consts { LinkPadding := 1 }
      scenario_sys 3 3 0 { buf := [1, 2, 0, 0, 0, 0], buflen := 6, buf_datalen := 2 }
      (by decide) (by decide) (by decide)
    obtain ⟨a, b, c, _, e⟩ := h5 3 (by decide) (by decide) (by decide)
    exact ⟨r, h, a, b, c, e⟩
  · obtain ⟨r, h, _, _, h3, _, _⟩ := read_to_buf_outcomes scenario_consts { LinkPadding := 1 }
      (scenario_sys_failing EAGAIN) 3 3 0
      { buf := [1, 2, 0, 0, 0, 0], buflen := 6, buf_datalen := 2 }
      (by decide) (by decide) (by decide)
    exact ⟨r, h, h3 (by decide) (by decide)⟩
  · obtain ⟨r, h, _, h2, _, _, _⟩ := read_to_buf_outcomes scenario_consts { LinkPadding := 1 }
      (scenario_sys_failing 32) 3 3 0
      { buf := [1, 2, 0, 0, 0, 0], buflen := 6, buf_datalen := 2 }
      (by decide) (by decide) (by decide)
    exact ⟨r, h, h2 (by decide) (by decide)⟩

/-- C11, the code at the failing input: with link padding disabled and the cell
constants 120, 4 and 128, ten payloads are 1160 bytes. A cap of 1200 bytes,
given as `at_most = 1200` or as `at_most = -1` with 1200 bytes free, exceeds
1160, yet `read_to_buf` requests and reads 1200 bytes: the test before the
clamp compares with `10 * sizeof(cell_t) = 1280`, not with the 1160 bytes it
clamps to. A cap of 1281 is brought down to 1160, fewer bytes than the smaller
cap of 1200 obtains. -/
theorem read_to_buf_fairness_gap :
    10 * (scenario_consts.CELL_PAYLOAD_SIZE - scenario_consts.TOPIC_HEADER_SIZE) = 1160 ∧
    (read_to_buf scenario_consts { LinkPadding := 0 } scenario_sys 3 1200 scenario_empty 0).map
        (fun r => (r.ret, r.trace)) = some (1200, [Syscall.read 3 1200]) ∧
    (read_to_buf scenario_consts { LinkPadding := 0 } scenario_sys 3 (-1)
        { buf := scenario_empty.buf, buflen := 16384, buf_datalen := 15184 } 0).map
        (fun r => (r.ret, r.trace)) = some (1200, [Syscall.read 3 1200]) ∧
    (read_to_buf scenario_consts { LinkPadding := 0 } scenario_sys 3 1281 scenario_empty 0).map
        (fun r => (r.ret, r.trace)) = some (1160, [Syscall.read 3 1160]) := by
  refine ⟨by decide, ?_, ?_, ?_⟩ <;> rfl

theorem read_to_buf_cap_bounds (at_most : Int) (b : Buf) (hd : b.buf_datalen ≤ b.buflen) :
    0 ≤ read_to_buf_cap at_most b ∧ read_to_buf_cap at_most b ≤ b.buflen - b.buf_datalen ∧
      (0 ≤ at_most → read_to_buf_cap at_most b ≤ at_most) := by
  unfold read_to_buf_cap
  split <;> omega

theorem read_to_buf_count_bounds (k : Consts) (options : or_options_t) (at_most : Int) (b : Buf)
    (hd : b.buf_datalen ≤ b.buflen) (hcap : read_to_buf_cap at_most b ≠ 0)
    (hk0 : 0 < k.CELL_PAYLOAD_SIZE - k.TOPIC_HEADER_SIZE)
    (hk : k.CELL_PAYLOAD_SIZE - k.TOPIC_HEADER_SIZE ≤ k.sizeof_cell_t) :
    0 < read_to_buf_count k options at_most b ∧
      read_to_buf_count k options at_most b ≤ read_to_buf_cap at_most b := by
  obtain ⟨h1, h2, h3⟩ := read_to_buf_cap_bounds at_most b hd
  unfold read_to_buf_count
  split
  · rename_i hc
    have := to_size_t_le k _ h1
    omega
  · omega

/-- C19: for a buffer with `data_length ≤ capacity`, and cell constants with
`0 < CELL_PAYLOAD_SIZE - TOPIC_HEADER_SIZE ≤ sizeof(cell_t)`, `read_to_buf`
returns, and every `read` it issues, clamped or not, asks for a byte count that
is positive, at most `capacity - data_length`, and at most `at_most` when
`at_most ≥ 0`; a `read` that delivers no more than it was asked for leaves
`data_length ≤ capacity`. -/
theorem read_to_buf_request_bounds (k : Consts) (options : or_options_t) (sys : Sys)
    (s at_most reached_eof : Int) (b : Buf) (hs : 0 ≤ s) (hd : b.buf_datalen ≤ b.buflen)
    (hk0 : 0 < k.CELL_PAYLOAD_SIZE - k.TOPIC_HEADER_SIZE)
    (hk : k.CELL_PAYLOAD_SIZE - k.TOPIC_HEADER_SIZE ≤ k.sizeof_cell_t) :
    ∃ r, read_to_buf k options sys s at_most b reached_eof = some r ∧
      (r.trace = [] ∨ r.trace = [Syscall.read s (read_to_buf_count k options at_most b)]) ∧
      ∀ c ∈ r.trace, ∃ count, c = Syscall.read s count ∧
        0 < count ∧ b.buf_datalen + count ≤ b.buflen ∧ (0 ≤ at_most → count ≤ at_most) ∧
        ((sys.read s count).result ≤ count → r.b.buf_datalen ≤ r.b.buflen) := by
  obtain ⟨h1, h2, h3⟩ := read_to_buf_cap_bounds at_most b hd
  by_cases hcap : read_to_buf_cap at_most b = 0
  · refine ⟨_, read_to_buf_idle k options sys s at_most reached_eof b hs hcap, Or.inl rfl, ?_⟩
    intro c hc
    exact absurd hc (List.not_mem_nil c)
  · obtain ⟨h4, h5⟩ := read_to_buf_count_bounds k options at_most b hd hcap hk0 hk
    refine ⟨_, read_to_buf_reads k options sys s at_most reached_eof b hs hcap, Or.inr rfl, ?_⟩
    intro c hc
    rw [List.mem_singleton] at hc
    refine ⟨_, hc, h4, by omega, fun h => by have := h3 h; omega, ?_⟩
    intro hres
    show (if (sys.read s (read_to_buf_count k options at_most b)).result ≤ 0 then b
      else _).buf_datalen ≤ (if (sys.read s (read_to_buf_count k options at_most b)).result ≤ 0
        then b else _).buflen
    split
    · exact hd
    · show b.buf_datalen + (sys.read s (read_to_buf_count k options at_most b)).result
        ≤ b.buflen
      omega

/-- C19 on the fresh buffer of capacity 16384, link padding disabled and
`at_most = -1`: the `read` asks for 1160 bytes. -/
theorem read_to_buf_request_bounds_witness :
    ∃ r, read_to_buf scenario_consts { LinkPadding := 0 } scenario_sys 3 (-1) scenario_empty 0
        = some r ∧
      r.trace = [Syscall.read 3 1160] ∧
      ∀ c ∈ r.trace, ∃ count, c = Syscall.read 3 count ∧
        0 < count ∧ scenario_empty.buf_datalen + count ≤ scenario_empty.buflen := by
  obtain ⟨r, h, _, h2⟩ := read_to_buf_request_bounds scenario_consts { LinkPadding := 0 }
    scenario_sys 3 (-1) 0 scenario_empty (by decide) (by decide) (by decide) (by decide)
  have ht : r.trace = [Syscall.read 3 1160] := by
    have h' : read_to_buf scenario_consts { LinkPadding := 0 } scenario_sys 3 (-1)
        scenario_empty 0 = some r := h
    have e : (read_to_buf scenario_consts { LinkPadding := 0 } scenario_sys 3 (-1)
        scenario_empty 0).map (fun r => r.trace) = some [Syscall.read 3 1160] := rfl
    rw [h'] at e
    exact Option.some.inj e
  refine ⟨r, h, ht, ?_⟩
  intro c hc
  obtain ⟨count, e1, e2, e3, _⟩ := h2 c hc
  exact ⟨count, e1, e2, e3⟩

/-! ## `find_on_inbuf` -/

theorem find_on_inbuf_hit_iff (string buf : List Byte) (location : Nat)
    (hlen : 0 < string.length) (hin : location + string.length ≤ buf.length) :
    (buf[location]? = string[0]? ∧
      memcmp (buf.drop (location + 1)) (string.drop 1) ((string.length : Int) - 1).toNat = 0)
      ↔ (buf.drop location).take string.length = string := by
  cases string with
  | nil => simp at hlen
  | cons s0 tail =>
    have hloc : location < buf.length := by simp at hin; omega
    have e : ((((s0 :: tail).length : Nat) : Int) - 1).toNat = tail.length := by
      simp
    rw [e, List.drop_eq_getElem_cons hloc]
    simp only [memcmp, List.getElem?_eq_getElem hloc, List.getElem?_cons_zero, Option.some.injEq,
      List.drop_succ_cons, List.drop_zero, List.take_length, List.length_cons,
      List.take_succ_cons, List.cons.injEq]
    constructor
    · rintro ⟨h1, h2⟩
      refine ⟨h1, ?_⟩
      by_contra hne
      rw [if_neg hne] at h2
      exact absurd h2 (by decide)
    · rintro ⟨h1, h2⟩
      exact ⟨h1, by rw [if_pos h2]⟩

theorem occurs_at_take (string buf : List Byte) (d i : Nat) (hi : i + string.length ≤ d) :
    occurs_at string (buf.take d) i ↔ (buf.drop i).take string.length = string := by
  unfold occurs_at
  rw [List.drop_take, List.take_take, min_eq_left (by omega)]

theorem occurs_at_bound (string region : List Byte) (i : Nat) (hlen : 0 < string.length)
    (h : occurs_at string region i) : i + string.length ≤ region.length := by
  unfold occurs_at at h
  have := congrArg List.length h
  simp only [List.length_take, List.length_drop] at this
  omega

theorem infix_iff_occurs_at (string region : List Byte) :
    string <:+: region ↔ ∃ i, occurs_at string region i := by
  constructor
  · rintro ⟨s, t, h⟩
    refine ⟨s.length, ?_⟩
    unfold occurs_at
    rw [← h, List.append_assoc, List.drop_left, List.take_left]
  · rintro ⟨i, h⟩
    unfold occurs_at at h
    refine ⟨region.take i, (region.drop i).drop string.length, ?_⟩
    have h1 : string ++ (region.drop i).drop string.length = region.drop i := by
      conv_lhs => rw [← h]
      rw [List.length_take]
      by_cases hl : string.length ≤ (region.drop i).length
      · rw [min_eq_left hl, List.take_append_drop]
      · have := congrArg List.length h
        simp only [List.length_take] at this
        omega
    rw [List.append_assoc, h1, List.take_append_drop]

theorem find_on_inbuf_loop_spec (string buf : List Byte) (last_possible : Int)
    (hlen : 0 < string.length)
    (hin : last_possible + string.length ≤ buf.length) :
    ∀ (fuel location : Nat), (location : Int) + fuel = last_possible + 1 →
      (find_on_inbuf_loop string string.length buf last_possible fuel location = -1 ∧
        ∀ i : Nat, location ≤ i → (i : Int) ≤ last_possible →
          ¬ (buf.drop i).take string.length = string) ∨
      (∃ i : Nat, location ≤ i ∧ (i : Int) ≤ last_possible ∧
        (buf.drop i).take string.length = string ∧
        (∀ j : Nat, location ≤ j → j < i → ¬ (buf.drop j).take string.length = string) ∧
        find_on_inbuf_loop string string.length buf last_possible fuel location
          = (i : Int) + string.length) := by
  intro fuel
  induction fuel with
  | zero =>
    intro location hl
    left
    refine ⟨rfl, ?_⟩
    intro i h1 h2
    omega
  | succ fuel ih =>
    intro location hl
    have hcond : (location : Int) ≤ last_possible := by omega
    have hhit := find_on_inbuf_hit_iff string buf location hlen (by omega)
    unfold find_on_inbuf_loop
    rw [if_pos hcond]
    by_cases hP : (buf.drop location).take string.length = string
    · right
      rw [if_pos (hhit.mpr hP)]
      exact ⟨location, le_refl _, hcond, hP, fun j h1 h2 => by omega, rfl⟩
    · rw [if_neg (fun h => hP (hhit.mp h))]
      rcases ih (location + 1) (by push_cast; omega) with ⟨h1, h2⟩ | ⟨i, h1, h2, h3, h4, h5⟩
      · left
        refine ⟨h1, ?_⟩
        intro i hi1 hi2
        by_cases hi : i = location
        · subst hi; exact hP
        · exact h2 i (by omega) hi2
      · right
        refine ⟨i, by omega, h2, h3, ?_, h5⟩
        intro j hj1 hj2
        by_cases hj : j = location
        · subst hj; exact hP
        · exact h4 j (by omega) hj2

/-- The iteration bound of `find_on_inbuf_loop` is only a bound: once it covers
the offsets up to `last_possible`, a larger one gives the same result. -/
theorem find_on_inbuf_loop_fuel (string : List Byte) (string_len : Int) (buf : List Byte)
    (last_possible : Int) :
    ∀ (fuel extra location : Nat), (location : Int) + fuel ≥ last_possible + 1 →
      find_on_inbuf_loop string string_len buf last_possible (fuel + extra) location
        = find_on_inbuf_loop string string_len buf last_possible fuel location := by
  intro fuel
  induction fuel with
  | zero =>
    intro extra location h
    cases extra with
    | zero => rfl
    | succ extra =>
      rw [Nat.zero_add]
      unfold find_on_inbuf_loop
      rw [if_neg (by omega)]
  | succ fuel ih =>
    intro extra location h
    rw [Nat.add_right_comm]
    unfold find_on_inbuf_loop
    rw [ih extra (location + 1) (by push_cast; omega)]

theorem find_on_inbuf_spec (string buf : List Byte) (d : Int)
    (hlen : 0 < string.length) (hstore : d ≤ buf.length) :
    ∃ r, find_on_inbuf string string.length buf d = some r ∧
      ((r = -1 ∧ ∀ i, ¬ occurs_at string (buf.take d.toNat) i) ∨
       (∃ i : Nat, r = (i : Int) + string.length ∧ (i : Int) + string.length ≤ d ∧
          occurs_at string (buf.take d.toNat) i ∧
          ∀ j, j < i → ¬ occurs_at string (buf.take d.toNat) j)) := by
  have hpos : ((string.length : Nat) : Int) > 0 := by omega
  have hvalid : (buf.take d.toNat).length = d.toNat := by
    rw [List.length_take]; omega
  by_cases hshort : d < string.length
  · refine ⟨-1, ?_, Or.inl ⟨rfl, ?_⟩⟩
    · simp only [find_on_inbuf, hpos, not_true_eq_false, if_false, hshort, if_true]
    · intro i hocc
      have := occurs_at_bound string _ i hlen hocc
      omega
  · have hfind : find_on_inbuf string string.length buf d
        = some (find_on_inbuf_loop string string.length buf (d - string.length)
            (d - string.length + 1).toNat 0) := by
      simp only [find_on_inbuf, hpos, not_true_eq_false, if_false, hshort]
    refine ⟨_, hfind, ?_⟩
    rcases find_on_inbuf_loop_spec string buf (d - string.length) hlen (by omega)
        (d - string.length + 1).toNat 0 (by omega) with ⟨h1, h2⟩ | ⟨i, _, h2, h3, h4, h5⟩
    · left
      refine ⟨h1, ?_⟩
      intro i hocc
      have hb := occurs_at_bound string _ i hlen hocc
      have hi : i + string.length ≤ d.toNat := by omega
      exact h2 i (Nat.zero_le _) (by omega) ((occurs_at_take string buf d.toNat i hi).mp hocc)
    · right
      have hi : i + string.length ≤ d.toNat := by omega
      refine ⟨i, h5, by omega, (occurs_at_take string buf d.toNat i hi).mpr h3, ?_⟩
      intro j hj hocc
      exact h4 j (Nat.zero_le _) hj
        ((occurs_at_take string buf d.toNat j (by omega)).mp hocc)

theorem find_on_inbuf_region (string buf buf' : List Byte) (d : Int)
    (hlen : 0 < string.length) (hstore : d ≤ buf.length)
    (hsame : buf'.take d.toNat = buf.take d.toNat) :
    find_on_inbuf string string.length buf' d = find_on_inbuf string string.length buf d := by
  have hstore' : d ≤ buf'.length := by
    have := congrArg List.length hsame
    simp only [List.length_take] at this
    omega
  obtain ⟨r, hr, hspec⟩ := find_on_inbuf_spec string buf d hlen hstore
  obtain ⟨r', hr', hspec'⟩ := find_on_inbuf_spec string buf' d hlen hstore'
  rw [hsame] at hspec'
  rw [hr, hr']
  congr 1
  rcases hspec with ⟨h1, h2⟩ | ⟨i, h1, _, h3, h4⟩ <;>
    rcases hspec' with ⟨h1', h2'⟩ | ⟨i', h1', _, h3', h4'⟩
  · rw [h1, h1']
  · exact absurd h3' (h2 i')
  · exact absurd h3 (h2' i)
  · have : i = i' := by
      by_contra hne
      rcases Nat.lt_or_gt_of_ne hne with h | h
      · exact h4' i h h3
      · exact h4 i' h h3'
    rw [h1, h1', this]

/-- C14: for a delimiter of length at least 1 and a buffer whose storage holds
its `data_length` bytes, `find_on_inbuf` returns `-1` exactly when the delimiter
does not occur as a contiguous run of the valid region; otherwise it returns
`i + len(delimiter)` for the smallest offset `i` at which the delimiter occurs.
The result depends on the valid region only: bytes of the storage at or beyond
`data_length` play no part. -/
theorem find_on_inbuf_first_match (string buf : List Byte) (d : Int)
    (hlen : 0 < string.length) (hstore : d ≤ buf.length) :
    ∃ r, find_on_inbuf string string.length buf d = some r ∧
      (r = -1 ↔ ¬ string <:+: buf.take d.toNat) ∧
      (r ≠ -1 → ∃ i : Nat, r = (i : Int) + string.length ∧
        occurs_at string (buf.take d.toNat) i ∧
        ∀ j, j < i → ¬ occurs_at string (buf.take d.toNat) j) ∧
      (∀ buf' : List Byte, buf'.take d.toNat = buf.take d.toNat →
        find_on_inbuf string string.length buf' d = some r) := by
  obtain ⟨r, hr, hspec⟩ := find_on_inbuf_spec string buf d hlen hstore
  refine ⟨r, hr, ?_, ?_, ?_⟩
  · rw [infix_iff_occurs_at]
    rcases hspec with ⟨h1, h2⟩ | ⟨i, h1, _, h3, _⟩
    · constructor
      · rintro _ ⟨i, hi⟩; exact h2 i hi
      · intro _; exact h1
    · constructor
      · intro h; omega
      · intro h; exact absurd ⟨i, h3⟩ h
  · intro hne
    rcases hspec with ⟨h1, _⟩ | ⟨i, h1, _, h3, h4⟩
    · exact absurd h1 hne
    · exact ⟨i, h1, h3, h4⟩
  · intro buf' hsame
    rw [find_on_inbuf_region string buf buf' d hlen hstore hsame, hr]

/-- C14 on the specification's scenario: the delimiter `"\r\n\r\n"` in
`"GET / HTTP/1.0\r\n\r\nX"` gives 18; in a region shorter than the delimiter it
gives `-1`. -/
theorem find_on_inbuf_first_match_witness :
    find_on_inbuf scenario_delimiter 4 scenario_request 19 = some 18 ∧
    find_on_inbuf scenario_delimiter 4 [13, 10, 13] 3 = some (-1) ∧
    ∃ r, find_on_inbuf scenario_delimiter 4 scenario_request 19 = some r ∧
      (r ≠ -1 → ∃ i : Nat, r = (i : Int) + 4 ∧
        occurs_at scenario_delimiter (scenario_request.take 19) i ∧
        ∀ j, j < i → ¬ occurs_at scenario_delimiter (scenario_request.take 19) j) := by
  obtain ⟨r, h, _, h2, _⟩ := find_on_inbuf_first_match scenario_delimiter scenario_request 19
    (by decide) (by decide)
  exact ⟨by decide, by decide, r, h, h2⟩

/-- C20: if `find_on_inbuf` on a buffer returns `r ≠ -1` for a delimiter of
length at least 1, then `len(delimiter) ≤ r ≤ data_length`, `fetch_from_buf(r)`
on the same buffer succeeds, and the `r` bytes it copies out end with the
delimiter and hold no occurrence of it other than that last one. -/
theorem find_then_fetch (string out : List Byte) (b : Buf) (r : Int)
    (hlen : 0 < string.length) (hstore : b.buf_datalen ≤ b.buf.length)
    (hfind : find_on_inbuf string string.length b.buf b.buf_datalen = some r)
    (hr : r ≠ -1) :
    (string.length : Int) ≤ r ∧ r ≤ b.buf_datalen ∧
    (fetch_from_buf out r b).1 ≠ -1 ∧
    (fetch_from_buf out r b).1 = b.buf_datalen - r ∧
    (fetch_from_buf out r b).2.1.take r.toNat = b.valid.take r.toNat ∧
    string <:+ (fetch_from_buf out r b).2.1.take r.toNat ∧
    (∀ j, occurs_at string ((fetch_from_buf out r b).2.1.take r.toNat) j →
      (j : Int) + string.length = r) := by
  obtain ⟨r', hr', hspec⟩ := find_on_inbuf_spec string b.buf b.buf_datalen hlen hstore
  rw [hfind] at hr'
  obtain rfl := Option.some.inj hr'
  rcases hspec with ⟨h1, _⟩ | ⟨i, h1, h2, h3, h4⟩
  · exact absurd h1 hr
  · have hrn : r = ((i + string.length : Nat) : Int) := by rw [h1]; push_cast; rfl
    have hle : ((i + string.length : Nat) : Int) ≤ b.buf_datalen := by push_cast; omega
    have c2 := fetch_from_buf_out out (i + string.length) b hle hstore
    have c4 : (fetch_from_buf out ((i + string.length : Nat) : Int) b).1
        = b.buf_datalen - ((i + string.length : Nat) : Int) := by
      rw [fetch_from_buf_ok _ _ _ hle]
    have c1 : (fetch_from_buf out ((i + string.length : Nat) : Int) b).1 ≠ -1 := by
      rw [c4]; omega
    rw [hrn, Int.toNat_ofNat]
    have hocc : (b.valid.drop i).take string.length = string := h3
    have hvlen : b.valid.length = b.buf_datalen.toNat := by
      unfold Buf.valid; rw [List.length_take]; omega
    refine ⟨by push_cast; omega, hle, c1, c4, c2, ?_, ?_⟩
    · rw [c2]
      refine ⟨b.valid.take i, ?_⟩
      conv_lhs => rw [← hocc]
      rw [← List.take_add]
    · intro j hj
      rw [c2] at hj
      have hb := occurs_at_bound string _ j hlen hj
      rw [List.length_take] at hb
      have hj' : occurs_at string b.valid j := by
        unfold occurs_at at hj ⊢
        rw [List.drop_take, List.take_take, min_eq_left (by omega)] at hj
        exact hj
      have : ¬ j < i := fun hlt => h4 j hlt hj'
      push_cast
      omega

/-- C20 on the specification's scenario: the search gives 18, and fetching 18
bytes yields `"GET / HTTP/1.0\r\n\r\n"`, which ends with the delimiter. -/
theorem find_then_fetch_witness :
    find_on_inbuf scenario_delimiter 4 scenario_request 19 = some 18 ∧
    (fetch_from_buf (List.replicate 18 0) 18
      { buf := scenario_request, buflen := 19, buf_datalen := 19 }).1 = 1 ∧
    scenario_delimiter <:+ (fetch_from_buf (List.replicate 18 0) 18
      { buf := scenario_request, buflen := 19, buf_datalen := 19 }).2.1.take 18 := by
  have h := find_then_fetch scenario_delimiter (List.replicate 18 0)
    { buf := scenario_request, buflen := 19, buf_datalen := 19 } 18
    (by decide) (by decide) (by decide) (by decide)
  exact ⟨by decide, h.2.2.2.1, h.2.2.2.2.2.1⟩

/-! ## The compression pipeline -/

theorem compress_from_buf_empty (deflate : Codec) (string : List Byte) (string_len : Int)
    (b : Buf) (z : z_stream) (flush : Int) (h : b.buf_datalen = 0) :
    compress_from_buf deflate string string_len b z flush
      = { ret := 0, string := string, b_in := b, zstream := z, invoked := false } := by
  simp only [compress_from_buf, h, if_true]

theorem compress_from_buf_ok (deflate : Codec) (string : List Byte) (string_len : Int)
    (b : Buf) (z : z_stream) (flush : Int) (h : b.buf_datalen ≠ 0)
    (hok : (deflate (compress_offer z b string_len) b.buf flush).err = Z_OK ∨
      (deflate (compress_offer z b string_len) b.buf flush).err = Z_STREAM_END) :
    compress_from_buf deflate string string_len b z flush
      = { ret := string_len
            - (deflate (compress_offer z b string_len) b.buf flush).strm.avail_out,
          string := memcpy string 0 (deflate (compress_offer z b string_len) b.buf flush).out
            (deflate (compress_offer z b string_len) b.buf flush).out.length,
          b_in :=
            { b with
              buf := memmove b.buf 0
                (deflate (compress_offer z b string_len) b.buf flush).strm.next_in
                (deflate (compress_offer z b string_len) b.buf flush).strm.avail_in.toNat,
              buf_datalen :=
                (deflate (compress_offer z b string_len) b.buf flush).strm.avail_in },
          zstream := (deflate (compress_offer z b string_len) b.buf flush).strm,
          invoked := true } := by
  unfold compress_offer at hok ⊢
  simp only [compress_from_buf, h, if_false, hok, if_true]

theorem compress_from_buf_error (deflate : Codec) (string : List Byte) (string_len : Int)
    (b : Buf) (z : z_stream) (flush : Int) (h : b.buf_datalen ≠ 0)
    (h1 : (deflate (compress_offer z b string_len) b.buf flush).err ≠ Z_OK)
    (h2 : (deflate (compress_offer z b string_len) b.buf flush).err ≠ Z_STREAM_END) :
    compress_from_buf deflate string string_len b z flush
      = { ret := -1,
          string := memcpy string 0 (deflate (compress_offer z b string_len) b.buf flush).out
            (deflate (compress_offer z b string_len) b.buf flush).out.length,
          b_in := b,
          zstream := (deflate (compress_offer z b string_len) b.buf flush).strm,
          invoked := true } := by
  unfold compress_offer at h1 h2 ⊢
  simp only [compress_from_buf, h, if_false, h1, h2, or_self]
  split <;> rfl

theorem memmove_valid_drop (b : Buf) (c : Nat) (hc : (c : Int) ≤ b.buf_datalen)
    (hstore : b.buf_datalen ≤ b.buf.length) :
    (memmove b.buf 0 c (b.buf_datalen - c).toNat).take (b.buf_datalen - c).toNat
      = b.valid.drop c := by
  rw [memmove_front_take _ _ _ (by omega)]
  simp only [Buf.valid, List.drop_take]
  congr 1
  omega

/-- C15: for a non-empty source and a `deflate` step that reports `Z_OK` or
`Z_STREAM_END` after consuming `c ≤ data_length` bytes and producing `p` bytes,
`compress_from_buf` leaves as the source's valid region the old one without its
first `c` bytes, sets the source `data_length` to `data_length - c`, and returns
`p`; the `p` bytes produced stand at the start of the destination. -/
theorem compress_from_buf_success (deflate : Codec) (string : List Byte) (string_len : Int)
    (b : Buf) (z : z_stream) (flush : Int) (c p : Nat)
    (hne : b.buf_datalen ≠ 0) (hstore : b.buf_datalen ≤ b.buf.length)
    (hok : (deflate (compress_offer z b string_len) b.buf flush).err = Z_OK ∨
      (deflate (compress_offer z b string_len) b.buf flush).err = Z_STREAM_END)
    (hstep : (deflate (compress_offer z b string_len) b.buf flush).step
      (compress_offer z b string_len) c p)
    (hc : (c : Int) ≤ b.buf_datalen) :
    (compress_from_buf deflate string string_len b z flush).invoked = true ∧
    (compress_from_buf deflate string string_len b z flush).b_in.valid = b.valid.drop c ∧
    (compress_from_buf deflate string string_len b z flush).b_in.buf_datalen
      = b.buf_datalen - c ∧
    (compress_from_buf deflate string string_len b z flush).b_in.buflen = b.buflen ∧
    (compress_from_buf deflate string string_len b z flush).ret = p ∧
    (compress_from_buf deflate string string_len b z flush).string.take p
      = (deflate (compress_offer z b string_len) b.buf flush).out := by
  obtain ⟨s1, s2, _, s4, s5⟩ := hstep
  rw [compress_from_buf_ok deflate string string_len b z flush hne hok]
  have e1 : (compress_offer z b string_len).next_in = 0 := rfl
  have e2 : (compress_offer z b string_len).avail_in = b.buf_datalen := rfl
  have e4 : (compress_offer z b string_len).avail_out = string_len := rfl
  rw [e1, Nat.zero_add] at s1
  rw [e2] at s2
  rw [e4] at s4
  refine ⟨rfl, ?_, s2, rfl, ?_, ?_⟩
  · show (memmove b.buf 0 _ _).take _ = _
    rw [s1, s2]
    exact memmove_valid_drop b c hc hstore
  · show string_len - _ = _
    rw [s4]; omega
  · show (memcpy string 0 _ _).take p = _
    rw [s5, memcpy_front_take _ _ _ (by omega), ← s5, List.take_length]

/-- C15 at a concrete buffer: four bytes held, the codec consumes two of them
and produces three. -/
theorem compress_from_buf_success_witness :
    (compress_from_buf (scenario_codec_step Z_OK) [0, 0, 0, 0] 4
      { buf := [1, 2, 3, 4, 0], buflen := 5, buf_datalen := 4 }
      { next_in := 0, avail_in := 0, next_out := 0, avail_out := 0, state := 0 } 0).b_in.valid
      = [3, 4] ∧
    (compress_from_buf (scenario_codec_step Z_OK) [0, 0, 0, 0] 4
      { buf := [1, 2, 3, 4, 0], buflen := 5, buf_datalen := 4 }
      { next_in := 0, avail_in := 0, next_out := 0, avail_out := 0, state := 0 }
      0).b_in.buf_datalen = 2 ∧
    (compress_from_buf (scenario_codec_step Z_OK) [0, 0, 0, 0] 4
      { buf := [1, 2, 3, 4, 0], buflen := 5, buf_datalen := 4 }
      { next_in := 0, avail_in := 0, next_out := 0, avail_out := 0, state := 0 } 0).ret = 3 := by
  have h := compress_from_buf_success (scenario_codec_step Z_OK) [0, 0, 0, 0] 4
    { buf := [1, 2, 3, 4, 0], buflen := 5, buf_datalen := 4 }
    { next_in := 0, avail_in := 0, next_out := 0, avail_out := 0, state := 0 } 0 2 3
    (by decide) (by decide) (Or.inl rfl) ⟨rfl, rfl, rfl, rfl, rfl⟩ (by decide)
  exact ⟨h.2.1, h.2.2.1, h.2.2.2.2.1⟩

/-- C16: on a source with `data_length = 0`, `compress_from_buf` returns 0
without running the codec and leaves destination, source and stream as they
were, whatever the flush mode; on a non-empty source, every `deflate` return
code other than `Z_OK` and `Z_STREAM_END` makes it return `-1` with the source
buffer as it was. -/
theorem compress_from_buf_classification (deflate : Codec) (string : List Byte)
    (string_len : Int) (b : Buf) (z : z_stream) (flush : Int) :
    (b.buf_datalen = 0 →
      compress_from_buf deflate string string_len b z flush
        = { ret := 0, string := string, b_in := b, zstream := z, invoked := false }) ∧
    (b.buf_datalen ≠ 0 →
      (deflate (compress_offer z b string_len) b.buf flush).err ≠ Z_OK →
      (deflate (compress_offer z b string_len) b.buf flush).err ≠ Z_STREAM_END →
      (compress_from_buf deflate string string_len b z flush).ret = -1 ∧
      (compress_from_buf deflate string string_len b z flush).b_in = b ∧
      (compress_from_buf deflate string string_len b z flush).invoked = true) := by
  refine ⟨compress_from_buf_empty deflate string string_len b z flush, ?_⟩
  intro hne h1 h2
  rw [compress_from_buf_error deflate string string_len b z flush hne h1 h2]
  exact ⟨rfl, rfl, rfl⟩

/-- C16 at concrete buffers: an empty source with flush mode 4 (`Z_FINISH`), and
a non-empty source with the codec reporting `Z_BUF_ERROR`, then an unknown
code. -/
theorem compress_from_buf_classification_witness :
    (compress_from_buf (scenario_codec_step Z_OK) [0, 0] 2
      { buf := [1, 2], buflen := 2, buf_datalen := 0 }
      { next_in := 0, avail_in := 0, next_out := 0, avail_out := 0, state := 0 } 4).ret = 0 ∧
    (compress_from_buf (scenario_codec_step Z_OK) [0, 0] 2
      { buf := [1, 2], buflen := 2, buf_datalen := 0 }
      { next_in := 0, avail_in := 0, next_out := 0, avail_out := 0, state := 0 } 4).invoked
      = false ∧
    (compress_from_buf (scenario_codec_step Z_BUF_ERROR) [0, 0] 2
      { buf := [1, 2], buflen := 2, buf_datalen := 2 }
      { next_in := 0, avail_in := 0, next_out := 0, avail_out := 0, state := 0 } 0).ret = -1 ∧
    (compress_from_buf (scenario_codec_step 77) [0, 0] 2
      { buf := [1, 2], buflen := 2, buf_datalen := 2 }
      { next_in := 0, avail_in := 0, next_out := 0, avail_out := 0, state := 0 } 0).ret = -1 := by
  have h1 := (compress_from_buf_classification (scenario_codec_step Z_OK) [0, 0] 2
    { buf := [1, 2], buflen := 2, buf_datalen := 0 }
    { next_in := 0, avail_in := 0, next_out := 0, avail_out := 0, state := 0 } 4).1 rfl
  have h2 := (compress_from_buf_classification (scenario_codec_step Z_BUF_ERROR) [0, 0] 2
    { buf := [1, 2], buflen := 2, buf_datalen := 2 }
    { next_in := 0, avail_in := 0, next_out := 0, avail_out := 0, state := 0 } 0).2
    (by decide) (by decide) (by decide)
  have h3 := (compress_from_buf_classification (scenario_codec_step 77) [0, 0] 2
    { buf := [1, 2], buflen := 2, buf_datalen := 2 }
    { next_in := 0, avail_in := 0, next_out := 0, avail_out := 0, state := 0 } 0).2
    (by decide) (by decide) (by decide)
  exact ⟨by rw [h1], by rw [h1], h2.1, h3.1⟩

theorem decompress_buf_to_buf_idle (inflate : Codec) (b_in b_out : Buf) (z : z_stream)
    (flush : Int) (h : b_in.buf_datalen = 0 ∧ b_out.buflen - b_out.buf_datalen = 0) :
    decompress_buf_to_buf inflate b_in b_out z flush
      = { ret := 0, b_in := b_in, b_out := b_out, zstream := decompress_offer z b_in b_out,
          invoked := false } := by
  unfold decompress_offer
  simp only [decompress_buf_to_buf, h, and_self, if_true]

theorem decompress_buf_to_buf_run (inflate : Codec) (b_in b_out : Buf) (z : z_stream)
    (flush : Int) (h : ¬ (b_in.buf_datalen = 0 ∧ b_out.buflen - b_out.buf_datalen = 0)) :
    decompress_buf_to_buf inflate b_in b_out z flush
      = if (inflate (decompress_offer z b_in b_out) b_in.buf flush).err = Z_OK ∨
            (inflate (decompress_offer z b_in b_out) b_in.buf flush).err = Z_STREAM_END then
          { ret := 1,
            b_in :=
              { b_in with
                buf := memmove b_in.buf 0
                  (inflate (decompress_offer z b_in b_out) b_in.buf flush).strm.next_in
                  (inflate (decompress_offer z b_in b_out) b_in.buf flush).strm.avail_in.toNat,
                buf_datalen :=
                  (inflate (decompress_offer z b_in b_out) b_in.buf flush).strm.avail_in },
            b_out :=
              { b_out with
                buf := memcpy b_out.buf b_out.buf_datalen.toNat
                  (inflate (decompress_offer z b_in b_out) b_in.buf flush).out
                  (inflate (decompress_offer z b_in b_out) b_in.buf flush).out.length,
                buf_datalen := b_out.buflen
                  - (inflate (decompress_offer z b_in b_out) b_in.buf flush).strm.avail_out },
            zstream := (inflate (decompress_offer z b_in b_out) b_in.buf flush).strm,
            invoked := true }
        else
          { ret :=
              if (inflate (decompress_offer z b_in b_out) b_in.buf flush).err = Z_STREAM_ERROR ∨
                (inflate (decompress_offer z b_in b_out) b_in.buf flush).err = Z_BUF_ERROR
              then 1 else -1,
            b_in := b_in,
            b_out :=
              { b_out with
                buf := memcpy b_out.buf b_out.buf_datalen.toNat
                  (inflate (decompress_offer z b_in b_out) b_in.buf flush).out
                  (inflate (decompress_offer z b_in b_out) b_in.buf flush).out.length },
            zstream := (inflate (decompress_offer z b_in b_out) b_in.buf flush).strm,
            invoked := true } := by
  unfold decompress_offer
  simp only [decompress_buf_to_buf, h, if_false]
  split
  · rfl
  · split <;> rfl

/-- C17: when the codec runs and its `inflate` step reports `Z_OK` or
`Z_STREAM_END` after consuming `c ≤ data_length` source bytes and producing
`p ≤ capacity - data_length` destination bytes, `decompress_buf_to_buf` returns
1; the step was offered the destination's storage from `data_length` on, with
`capacity - data_length` bytes of room; the source's valid region loses its
first `c` bytes and its `data_length` drops by `c`; the destination's
`data_length` rises by `p`, stays within the capacity, and its valid region is
the old one followed by the bytes produced. Nothing else about the codec
matters to the result. -/
theorem decompress_buf_to_buf_success (inflate : Codec) (b_in b_out : Buf) (z : z_stream)
    (flush : Int) (c p : Nat)
    (hrun : ¬ (b_in.buf_datalen = 0 ∧ b_out.buflen - b_out.buf_datalen = 0))
    (hstore : b_in.buf_datalen ≤ b_in.buf.length) (h0 : 0 ≤ b_out.buf_datalen)
    (hok : (inflate (decompress_offer z b_in b_out) b_in.buf flush).err = Z_OK ∨
      (inflate (decompress_offer z b_in b_out) b_in.buf flush).err = Z_STREAM_END)
    (hstep : (inflate (decompress_offer z b_in b_out) b_in.buf flush).step
      (decompress_offer z b_in b_out) c p)
    (hc : (c : Int) ≤ b_in.buf_datalen) (hp : (p : Int) ≤ b_out.buflen - b_out.buf_datalen) :
    (decompress_buf_to_buf inflate b_in b_out z flush).ret = 1 ∧
    (decompress_buf_to_buf inflate b_in b_out z flush).invoked = true ∧
    ((decompress_offer z b_in b_out).next_out = b_out.buf_datalen.toNat ∧
      (decompress_offer z b_in b_out).avail_out = b_out.buflen - b_out.buf_datalen ∧
      (decompress_offer z b_in b_out).next_in = 0 ∧
      (decompress_offer z b_in b_out).avail_in = b_in.buf_datalen) ∧
    (decompress_buf_to_buf inflate b_in b_out z flush).b_in.valid = b_in.valid.drop c ∧
    (decompress_buf_to_buf inflate b_in b_out z flush).b_in.buf_datalen
      = b_in.buf_datalen - c ∧
    (decompress_buf_to_buf inflate b_in b_out z flush).b_out.buf_datalen
      = b_out.buf_datalen + p ∧
    (decompress_buf_to_buf inflate b_in b_out z flush).b_out.buf_datalen
      ≤ (decompress_buf_to_buf inflate b_in b_out z flush).b_out.buflen ∧
    (decompress_buf_to_buf inflate b_in b_out z flush).b_out.buflen = b_out.buflen ∧
    (decompress_buf_to_buf inflate b_in b_out z flush).b_out.valid
      = b_out.valid ++ (inflate (decompress_offer z b_in b_out) b_in.buf flush).out ∧
    (∀ inflate' : Codec,
      inflate' (decompress_offer z b_in b_out) b_in.buf flush
        = inflate (decompress_offer z b_in b_out) b_in.buf flush →
      decompress_buf_to_buf inflate' b_in b_out z flush
        = decompress_buf_to_buf inflate b_in b_out z flush) := by
  obtain ⟨s1, s2, _, s4, s5⟩ := hstep
  have e1 : (decompress_offer z b_in b_out).next_in = 0 := rfl
  have e2 : (decompress_offer z b_in b_out).avail_in = b_in.buf_datalen := rfl
  have e4 : (decompress_offer z b_in b_out).avail_out = b_out.buflen - b_out.buf_datalen := rfl
  rw [e1, Nat.zero_add] at s1
  rw [e2] at s2
  rw [e4] at s4
  have hlast : ∀ inflate' : Codec,
      inflate' (decompress_offer z b_in b_out) b_in.buf flush
        = inflate (decompress_offer z b_in b_out) b_in.buf flush →
      decompress_buf_to_buf inflate' b_in b_out z flush
        = decompress_buf_to_buf inflate b_in b_out z flush := by
    intro inflate' hsame
    rw [decompress_buf_to_buf_run inflate' b_in b_out z flush hrun,
      decompress_buf_to_buf_run inflate b_in b_out z flush hrun, hsame]
  refine ⟨?_, ?_, ⟨rfl, rfl, rfl, rfl⟩, ?_, ?_, ?_, ?_, ?_, ?_, hlast⟩
  all_goals rw [decompress_buf_to_buf_run inflate b_in b_out z flush hrun, if_pos hok]
  · show (memmove b_in.buf 0 _ _).take _ = _
    rw [s1, s2]
    exact memmove_valid_drop b_in c hc hstore
  · exact s2
  · show b_out.buflen - _ = _
    rw [s4]; omega
  · show b_out.buflen - _ ≤ b_out.buflen
    rw [s4]; omega
  · show (memcpy b_out.buf b_out.buf_datalen.toNat _ _).take (b_out.buflen - _).toNat = _
    rw [s4]
    have e : (b_out.buflen - (b_out.buflen - b_out.buf_datalen - (p : Int))).toNat
        = b_out.buf_datalen.toNat
          + (inflate (decompress_offer z b_in b_out) b_in.buf flush).out.length := by
      omega
    rw [e, memcpy_append_take _ _ _ _ (le_refl _), List.take_length]
    rfl

/-- C17 at concrete buffers: the source holds four bytes, the destination two
of five; the codec consumes two bytes and produces three. -/
theorem decompress_buf_to_buf_success_witness :
    (decompress_buf_to_buf (scenario_codec_step Z_OK)
      { buf := [1, 2, 3, 4], buflen := 4, buf_datalen := 4 }
      { buf := [5, 6, 0, 0, 0], buflen := 5, buf_datalen := 2 }
      { next_in := 0, avail_in := 0, next_out := 0, avail_out := 0, state := 0 } 0).ret = 1 ∧
    (decompress_buf_to_buf (scenario_codec_step Z_OK)
      { buf := [1, 2, 3, 4], buflen := 4, buf_datalen := 4 }
      { buf := [5, 6, 0, 0, 0], buflen := 5, buf_datalen := 2 }
      { next_in := 0, avail_in := 0, next_out := 0, avail_out := 0, state := 0 } 0).b_in.valid
      = [3, 4] ∧
    (decompress_buf_to_buf (scenario_codec_step Z_OK)
      { buf := [1, 2, 3, 4], buflen := 4, buf_datalen := 4 }
      { buf := [5, 6, 0, 0, 0], buflen := 5, buf_datalen := 2 }
      { next_in := 0, avail_in := 0, next_out := 0, avail_out := 0, state := 0 } 0).b_out.valid
      = [5, 6, 7, 8, 9] := by
  have h := decompress_buf_to_buf_success (scenario_codec_step Z_OK)
    { buf := [1, 2, 3, 4], buflen := 4, buf_datalen := 4 }
    { buf := [5, 6, 0, 0, 0], buflen := 5, buf_datalen := 2 }
    { next_in := 0, avail_in := 0, next_out := 0, avail_out := 0, state := 0 } 0 2 3
    (by decide) (by decide) (by decide) (Or.inl rfl) ⟨rfl, rfl, rfl, rfl, rfl⟩
    (by decide) (by decide)
  exact ⟨h.1, h.2.2.2.1, h.2.2.2.2.2.2.2.2.1⟩

/-- C18: `decompress_buf_to_buf` skips the codec exactly when the source is
empty and the destination is full at once, and exactly then it returns 0,
leaving both buffers as they were. When the codec runs and reports
`Z_STREAM_ERROR` or `Z_BUF_ERROR` it returns 1 with both `data_length`s
unchanged; when the codec reports a code outside `Z_OK`, `Z_STREAM_END`,
`Z_STREAM_ERROR`, `Z_BUF_ERROR` it returns `-1`. -/
theorem decompress_buf_to_buf_classification (inflate : Codec) (b_in b_out : Buf)
    (z : z_stream) (flush : Int) :
    ((decompress_buf_to_buf inflate b_in b_out z flush).invoked = false ↔
      (b_in.buf_datalen = 0 ∧ b_out.buf_datalen = b_out.buflen)) ∧
    ((decompress_buf_to_buf inflate b_in b_out z flush).ret = 0 ↔
      (b_in.buf_datalen = 0 ∧ b_out.buf_datalen = b_out.buflen)) ∧
    ((b_in.buf_datalen = 0 ∧ b_out.buf_datalen = b_out.buflen) →
      (decompress_buf_to_buf inflate b_in b_out z flush).b_in = b_in ∧
      (decompress_buf_to_buf inflate b_in b_out z flush).b_out = b_out) ∧
    (¬ (b_in.buf_datalen = 0 ∧ b_out.buf_datalen = b_out.buflen) →
      ((inflate (decompress_offer z b_in b_out) b_in.buf flush).err = Z_STREAM_ERROR ∨
        (inflate (decompress_offer z b_in b_out) b_in.buf flush).err = Z_BUF_ERROR) →
      (decompress_buf_to_buf inflate b_in b_out z flush).ret = 1 ∧
      (decompress_buf_to_buf inflate b_in b_out z flush).b_in.buf_datalen
        = b_in.buf_datalen ∧
      (decompress_buf_to_buf inflate b_in b_out z flush).b_out.buf_datalen
        = b_out.buf_datalen) ∧
    (¬ (b_in.buf_datalen = 0 ∧ b_out.buf_datalen = b_out.buflen) →
      (inflate (decompress_offer z b_in b_out) b_in.buf flush).err ≠ Z_OK →
      (inflate (decompress_offer z b_in b_out) b_in.buf flush).err ≠ Z_STREAM_END →
      (inflate (decompress_offer z b_in b_out) b_in.buf flush).err ≠ Z_STREAM_ERROR →
      (inflate (decompress_offer z b_in b_out) b_in.buf flush).err ≠ Z_BUF_ERROR →
      (decompress_buf_to_buf inflate b_in b_out z flush).ret = -1) := by
  by_cases h : b_in.buf_datalen = 0 ∧ b_out.buf_datalen = b_out.buflen
  · have h' : b_in.buf_datalen = 0 ∧ b_out.buflen - b_out.buf_datalen = 0 := ⟨h.1, by omega⟩
    rw [decompress_buf_to_buf_idle inflate b_in b_out z flush h']
    simp [h]
  · have h' : ¬ (b_in.buf_datalen = 0 ∧ b_out.buflen - b_out.buf_datalen = 0) := by
      intro hc; exact h ⟨hc.1, by omega⟩
    rw [decompress_buf_to_buf_run inflate b_in b_out z flush h']
    refine ⟨?_, ?_, fun hc => absurd hc h, ?_, ?_⟩
    · split <;> simp [h]
    · split
      · simp [h]
      · split <;> simp [h]
    · intro _ hfatal
      have hnot : ¬ ((inflate (decompress_offer z b_in b_out) b_in.buf flush).err = Z_OK ∨
          (inflate (decompress_offer z b_in b_out) b_in.buf flush).err = Z_STREAM_END) := by
        rcases hfatal with hf | hf <;> rw [hf] <;> decide
      rw [if_neg hnot]
      simp only [hfatal, if_true, and_self]
    · intro _ h1 h2 h3 h4
      rw [if_neg (by intro hc; rcases hc with hc | hc; exact h1 hc; exact h2 hc)]
      show (if _ then (1 : Int) else -1) = -1
      rw [if_neg (by intro hc; rcases hc with hc | hc; exact h3 hc; exact h4 hc)]

/-- C18 at concrete buffers: an empty source and a full destination give 0; a
codec that reports `Z_BUF_ERROR` and consumes and produces nothing gives 1 all
the same; an unknown code gives `-1`. -/
theorem decompress_buf_to_buf_classification_witness :
    (decompress_buf_to_buf (scenario_codec_step Z_OK)
      { buf := [1, 2], buflen := 2, buf_datalen := 0 }
      { buf := [5, 6], buflen := 2, buf_datalen := 2 }
      { next_in := 0, avail_in := 0, next_out := 0, avail_out := 0, state := 0 } 0).ret = 0 ∧
    ((decompress_buf_to_buf (scenario_codec_step Z_BUF_ERROR)
      { buf := [1, 2], buflen := 2, buf_datalen := 2 }
      { buf := [5, 6], buflen := 2, buf_datalen := 2 }
      { next_in := 0, avail_in := 0, next_out := 0, avail_out := 0, state := 0 } 0).ret = 1 ∧
     (decompress_buf_to_buf (scenario_codec_step Z_BUF_ERROR)
      { buf := [1, 2], buflen := 2, buf_datalen := 2 }
      { buf := [5, 6], buflen := 2, buf_datalen := 2 }
      { next_in := 0, avail_in := 0, next_out := 0, avail_out := 0, state := 0 }
      0).b_in.buf_datalen = 2 ∧
     (decompress_buf_to_buf (scenario_codec_step Z_BUF_ERROR)
      { buf := [1, 2], buflen := 2, buf_datalen := 2 }
      { buf := [5, 6], buflen := 2, buf_datalen := 2 }
      { next_in := 0, avail_in := 0, next_out := 0, avail_out := 0, state := 0 }
      0).b_out.buf_datalen = 2) ∧
    (decompress_buf_to_buf (scenario_codec_step 77)
      { buf := [1, 2], buflen := 2, buf_datalen := 2 }
      { buf := [5, 6], buflen := 2, buf_datalen := 2 }
      { next_in := 0, avail_in := 0, next_out := 0, avail_out := 0, state := 0 } 0).ret = -1 := by
  have h1 := decompress_buf_to_buf_classification (scenario_codec_step Z_OK)
    { buf := [1, 2], buflen := 2, buf_datalen := 0 }
    { buf := [5, 6], buflen := 2, buf_datalen := 2 }
    { next_in := 0, avail_in := 0, next_out := 0, avail_out := 0, state := 0 } 0
  have h2 := decompress_buf_to_buf_classification (scenario_codec_step Z_BUF_ERROR)
    { buf := [1, 2], buflen := 2, buf_datalen := 2 }
    { buf := [5, 6], buflen := 2, buf_datalen := 2 }
    { next_in := 0, avail_in := 0, next_out := 0, avail_out := 0, state := 0 } 0
  have h3 := decompress_buf_to_buf_classification (scenario_codec_step 77)
    { buf := [1, 2], buflen := 2, buf_datalen := 2 }
    { buf := [5, 6], buflen := 2, buf_datalen := 2 }
    { next_in := 0, avail_in := 0, next_out := 0, avail_out := 0, state := 0 } 0
  exact ⟨h1.2.1.2 (by decide), h2.2.2.2.1 (by decide) (Or.inr rfl),
    h3.2.2.2.2 (by decide) (by decide) (by decide) (by decide) (by decide)⟩

end Buffers
